import Mathlib

/-!
Shallow embedding of the lexical scanner in src/lexer/lexer.go (package lexer
of hculpan/htc).  Bytes are modelled as natural numbers, the source buffer as
a list of bytes, and every Go loop is rendered as a fuel-indexed structurally
recursive function: the fueled function returns `some r` exactly when the Go
loop terminates with result `r`, and `none` when the given fuel is exhausted,
so non-termination of a loop corresponds to the fueled function returning
`none` for every fuel.
-/

/-- The `Token` struct: Type (a string tag), Literal (the lexeme, as raw
bytes), Line and Position, in source order. -/
structure Token where
  type : String
  literal : List Nat
  line : Nat
  pos : Nat
deriving Repr, DecidableEq

/-- The `Lexer` struct: input buffer, `position` (current byte index),
`readPosition` (next byte index), `ch` (current byte, 0 is the end sentinel),
`line`, `tokenPosition`, and the accumulated error strings. -/
structure Lexer where
  input : List Nat
  position : Nat
  readPosition : Nat
  ch : Nat
  line : Nat
  tokenPosition : Nat
  errors : List String
deriving Repr, DecidableEq

/-- Go slice `input[a:b]`. -/
def substring (s : List Nat) (a b : Nat) : List Nat :=
  (s.drop a).take (b - a)

/-- The byte of `input` at index `p`, or 0 when out of range: this is the
value the scanner's bounds-checked reads produce. -/
def chAt (input : List Nat) (p : Nat) : Nat :=
  if input.length ≤ p then 0 else input.getD p 0

/-- `readChar`: reads the next byte (sentinel 0 past the end) and advances
`position`, `readPosition` and `tokenPosition`. -/
def readChar (l : Lexer) : Lexer :=
  { l with
    ch := if l.input.length ≤ l.readPosition then 0 else l.input.getD l.readPosition 0
    position := l.readPosition
    readPosition := l.readPosition + 1
    tokenPosition := l.tokenPosition + 1 }

/-- `NewLexer`: zero-value struct with `line` set to 1, primed by one
`readChar`. -/
def newLexer (input : List Nat) : Lexer :=
  readChar { input := input, position := 0, readPosition := 0, ch := 0,
             line := 1, tokenPosition := 0, errors := [] }

/-- `peekChar`: the byte at `readPosition` without advancing (0 past the
end). -/
def peekChar (l : Lexer) : Nat :=
  if l.input.length ≤ l.readPosition then 0 else l.input.getD l.readPosition 0

/-- `isLetter`: `unicode.IsLetter(rune(ch)) || ch == '_'`.  Since `ch` is a
byte, `rune(ch)` ranges over the Latin-1 code points, on which the Unicode
letters are A-Z, a-z, ª (170), µ (181), º (186), À-Ö (192-214), Ø-ö
(216-246) and ø-ÿ (248-255). -/
def isLetter (c : Nat) : Bool :=
  (65 ≤ c && c ≤ 90) || (97 ≤ c && c ≤ 122) || c = 95 ||
  c = 170 || c = 181 || c = 186 ||
  (192 ≤ c && c ≤ 214) || (216 ≤ c && c ≤ 246) || (248 ≤ c && c ≤ 255)

/-- `isDigit`: `'0' <= ch && ch <= '9'`. -/
def isDigit (c : Nat) : Bool :=
  48 ≤ c && c ≤ 57

/-- `lookupIdent`: the fixed keyword table; the kind tag of a keyword is its
literal spelling. -/
def lookupIdent (s : List Nat) : String :=
  if s = [105, 102] then "if"
  else if s = [101, 108, 115, 101] then "else"
  else if s = [119, 104, 105, 108, 101] then "while"
  else if s = [114, 101, 116, 117, 114, 110] then "return"
  else if s = [105, 110, 116] then "int"
  else if s = [118, 111, 105, 100] then "void"
  else if s = [102, 111, 114] then "for"
  else if s = [112, 114, 105, 110, 116, 102] then "printf"
  else "IDENT"

/-- `addError`: appends `"[line:tokenPosition] msg"` to the error log. -/
def addError (l : Lexer) (msg : String) : Lexer :=
  { l with errors := l.errors ++
      ["[" ++ Nat.repr l.line ++ ":" ++ Nat.repr l.tokenPosition ++ "] " ++ msg] }

/-- `skipWhitespace`: consume spaces, tabs and carriage returns. -/
def skipWhitespaceF : Nat → Lexer → Option Lexer
  | 0, _ => none
  | fuel + 1, l =>
    if l.ch = 32 ∨ l.ch = 9 ∨ l.ch = 13 then skipWhitespaceF fuel (readChar l)
    else some l

/-- The loop of `readLineComment`: consume until the current byte is CR or
LF (which is left unconsumed). -/
def lineCommentLoop : Nat → Lexer → Option Lexer
  | 0, _ => none
  | fuel + 1, l =>
    if l.ch = 13 ∨ l.ch = 10 then some l
    else lineCommentLoop fuel (readChar l)

/-- `readLineComment`: the loop plus the slice `input[position:l.position]`. -/
def readLineCommentF (fuel : Nat) (l : Lexer) : Option (List Nat × Lexer) :=
  match lineCommentLoop fuel l with
  | none => none
  | some l2 => some (substring l2.input l.position l2.position, l2)

/-- The loop of `readBlockComment`: stop on `*` followed by `/`; count LF
bytes into `line`; otherwise advance. -/
def blockCommentLoop : Nat → Lexer → Option Lexer
  | 0, _ => none
  | fuel + 1, l =>
    if l.ch = 42 ∧ peekChar l = 47 then some l
    else if l.ch = 10 then blockCommentLoop fuel (readChar { l with line := l.line + 1 })
    else blockCommentLoop fuel (readChar l)

/-- `readBlockComment`: the loop, two `readChar`s over the terminator, and
the slice `input[position:l.position]`. -/
def readBlockCommentF (fuel : Nat) (l : Lexer) : Option (List Nat × Lexer) :=
  match blockCommentLoop fuel l with
  | none => none
  | some l2 =>
    let l3 := readChar (readChar l2)
    some (substring l3.input l.position l3.position, l3)

/-- The loop of `readString`: stop on a closing quote (normal) or a LF
(early termination); otherwise advance. -/
def stringLoop : Nat → Lexer → Option Lexer
  | 0, _ => none
  | fuel + 1, l =>
    if l.ch = 34 then some l
    else if l.ch = 10 then some l
    else stringLoop fuel (readChar l)

/-- `readString`: skip the opening quote, run the loop, and return the slice
`input[position+1:l.position]` together with the error flag (true when the
loop stopped at a LF). -/
def readStringF (fuel : Nat) (l : Lexer) : Option (List Nat × Bool × Lexer) :=
  let l1 := readChar l
  match stringLoop fuel l1 with
  | none => none
  | some l2 =>
    if l2.ch = 34 then some (substring l2.input (l.position + 1) l2.position, false, l2)
    else some (substring l2.input (l.position + 1) l2.position, true, l2)

/-- The loop of `readIdentifier`: consume while `isLetter`. -/
def identLoop : Nat → Lexer → Option Lexer
  | 0, _ => none
  | fuel + 1, l =>
    if isLetter l.ch then identLoop fuel (readChar l)
    else some l

/-- The loop of `readNumber`: consume while `isDigit`. -/
def digitLoop : Nat → Lexer → Option Lexer
  | 0, _ => none
  | fuel + 1, l =>
    if isDigit l.ch then digitLoop fuel (readChar l)
    else some l

/-- The switch of `NextToken`, including the repeat loop that absorbs
newlines.  Every branch that falls out of the switch performs the trailing
`readChar`; the identifier and number branches return directly without it,
as in the source. -/
def tokenSwitch : Nat → Lexer → Option (Token × Lexer)
  | 0, _ => none
  | fuel + 1, l =>
    if l.ch = 10 then
      match skipWhitespaceF fuel (readChar { l with line := l.line + 1 }) with
      | none => none
      | some l2 => tokenSwitch fuel { l2 with tokenPosition := 0 }
    else if l.ch = 61 then
      if peekChar l = 61 then
        let l1 := readChar l
        some (⟨"==", [l.ch, l1.ch], l1.line, l1.tokenPosition⟩, readChar l1)
      else some (⟨"=", [l.ch], l.line, l.position⟩, readChar l)
    else if l.ch = 43 then
      if peekChar l = 43 then
        let l1 := readChar l
        some (⟨"++", [l.ch, l1.ch], l1.line, l1.tokenPosition⟩, readChar l1)
      else if peekChar l = 61 then
        let l1 := readChar l
        some (⟨"+=", [l.ch, l1.ch], l1.line, l1.tokenPosition⟩, readChar l1)
      else some (⟨"+", [l.ch], l.line, l.position⟩, readChar l)
    else if l.ch = 45 then
      if peekChar l = 45 then
        let l1 := readChar l
        some (⟨"--", [l.ch, l1.ch], l1.line, l1.tokenPosition⟩, readChar l1)
      else if peekChar l = 61 then
        let l1 := readChar l
        some (⟨"-=", [l.ch, l1.ch], l1.line, l1.tokenPosition⟩, readChar l1)
      else some (⟨"-", [l.ch], l.line, l.position⟩, readChar l)
    else if l.ch = 42 then some (⟨"*", [l.ch], l.line, l.position⟩, readChar l)
    else if l.ch = 47 then
      if peekChar l = 47 then
        match readLineCommentF fuel l with
        | none => none
        | some (lit, l2) => some (⟨"COMMENT", lit, l2.line, l2.tokenPosition⟩, readChar l2)
      else if peekChar l = 42 then
        match readBlockCommentF fuel l with
        | none => none
        | some (lit, l2) => some (⟨"COMMENT", lit, l2.line, l2.tokenPosition⟩, readChar l2)
      else some (⟨"/", [l.ch], l.line, l.position⟩, readChar l)
    else if l.ch = 37 then some (⟨"%", [l.ch], l.line, l.position⟩, readChar l)
    else if l.ch = 33 then
      if peekChar l = 61 then
        let l1 := readChar l
        some (⟨"!=", [l.ch, l1.ch], l1.line, l1.tokenPosition⟩, readChar l1)
      else some (⟨"!", [l.ch], l.line, l.position⟩, readChar l)
    else if l.ch = 60 then
      if peekChar l = 61 then
        let l1 := readChar l
        some (⟨"<=", [l.ch, l1.ch], l1.line, l1.tokenPosition⟩, readChar l1)
      else some (⟨"<", [l.ch], l.line, l.position⟩, readChar l)
    else if l.ch = 62 then
      if peekChar l = 61 then
        let l1 := readChar l
        some (⟨">=", [l.ch, l1.ch], l1.line, l1.tokenPosition⟩, readChar l1)
      else some (⟨">", [l.ch], l.line, l.position⟩, readChar l)
    else if l.ch = 40 then some (⟨"(", [l.ch], l.line, l.position⟩, readChar l)
    else if l.ch = 41 then some (⟨")", [l.ch], l.line, l.position⟩, readChar l)
    else if l.ch = 123 then some (⟨"\x7b", [l.ch], l.line, l.position⟩, readChar l)
    else if l.ch = 125 then some (⟨"\x7d", [l.ch], l.line, l.position⟩, readChar l)
    else if l.ch = 91 then some (⟨"[", [l.ch], l.line, l.position⟩, readChar l)
    else if l.ch = 93 then some (⟨"]", [l.ch], l.line, l.position⟩, readChar l)
    else if l.ch = 44 then some (⟨",", [l.ch], l.line, l.position⟩, readChar l)
    else if l.ch = 46 then some (⟨".", [l.ch], l.line, l.position⟩, readChar l)
    else if l.ch = 59 then some (⟨";", [l.ch], l.line, l.position⟩, readChar l)
    else if l.ch = 0 then some (⟨"EOF", [], 0, 0⟩, readChar l)
    else if l.ch = 34 then
      match readStringF fuel l with
      | none => none
      | some (lit, err, l2) =>
        let l3 := if err then addError l2 "non-terminated string" else l2
        some (⟨"STRING", lit, l3.line, l3.tokenPosition⟩, readChar l3)
    else if isLetter l.ch then
      match identLoop fuel l with
      | none => none
      | some l2 =>
        let lit := substring l2.input l.position l2.position
        some (⟨lookupIdent lit, lit, l2.line, l2.tokenPosition⟩, l2)
    else if isDigit l.ch then
      match digitLoop fuel l with
      | none => none
      | some l2 =>
        let lit := substring l2.input l.position l2.position
        some (⟨"INT", lit, l2.line, l2.tokenPosition⟩, l2)
    else some (⟨"ILLEGAL", [l.ch], l.line, l.position⟩, readChar l)

/-- `NextToken`: skip whitespace, then run the switch. -/
def nextTokenF (fuel : Nat) (l : Lexer) : Option (Token × Lexer) :=
  match skipWhitespaceF fuel l with
  | none => none
  | some l1 => tokenSwitch fuel l1

/-- `Tokens`: drain `NextToken` until an EOF token is produced (inclusive). -/
def tokensF : Nat → Lexer → Option (List Token)
  | 0, _ => none
  | fuel + 1, l =>
    match nextTokenF fuel l with
    | none => none
    | some (t, l') =>
      if t.type = "EOF" then some [t]
      else (tokensF fuel l').map (fun ts => t :: ts)

/-- A scanner state is coherent when `readPosition` trails `position` by one
and `ch` caches the byte at `position` (0 past the end).  Every state
produced by `readChar` — hence every state the scanner ever reaches — is
coherent. -/
def Coherent (l : Lexer) : Prop :=
  l.readPosition = l.position + 1 ∧ l.ch = chAt l.input l.position

theorem coherent_readChar (l : Lexer) : Coherent (readChar l) := by
  constructor
  · rfl
  · rfl

theorem coherent_newLexer (input : List Nat) : Coherent (newLexer input) :=
  coherent_readChar _

theorem readChar_ch_eq_peekChar (l : Lexer) : (readChar l).ch = peekChar l := rfl

/-- Once the input is exhausted, `readChar` keeps producing the 0 sentinel
and keeps the cursor past the end. -/
theorem readChar_exhausted (l : Lexer) (h : l.input.length ≤ l.readPosition) :
    (readChar l).ch = 0 ∧ l.input.length ≤ (readChar l).readPosition ∧
      (readChar l).position = l.readPosition := by
  refine ⟨?_, ?_, rfl⟩
  · simp [readChar, h]
  · simp [readChar]
    omega

/-- The line-comment loop never stops once the input is exhausted: the
sentinel byte 0 is neither CR nor LF, so every fuel bound is exceeded. -/
theorem lineCommentLoop_dead :
    ∀ fuel (l : Lexer), l.ch = 0 → l.input.length ≤ l.readPosition →
      lineCommentLoop fuel l = none := by
  intro fuel
  induction fuel with
  | zero => intro l _ _; rfl
  | succ n ih =>
    intro l h1 h2
    have hcond : ¬(l.ch = 13 ∨ l.ch = 10) := by omega
    simp only [lineCommentLoop, hcond, if_false]
    exact ih (readChar l) (by simp [readChar, h2]) (by simp [readChar]; omega)

/-- The block-comment loop never stops once the input is exhausted. -/
theorem blockCommentLoop_dead :
    ∀ fuel (l : Lexer), l.ch = 0 → l.input.length ≤ l.readPosition →
      blockCommentLoop fuel l = none := by
  intro fuel
  induction fuel with
  | zero => intro l _ _; rfl
  | succ n ih =>
    intro l h1 h2
    have hstop : ¬(l.ch = 42 ∧ peekChar l = 47) := by omega
    have h10 : ¬(l.ch = 10) := by omega
    simp only [blockCommentLoop, hstop, h10, if_false]
    exact ih (readChar l) (by simp [readChar, h2]) (by simp [readChar]; omega)

/-- The string loop never stops once the input is exhausted. -/
theorem stringLoop_dead :
    ∀ fuel (l : Lexer), l.ch = 0 → l.input.length ≤ l.readPosition →
      stringLoop fuel l = none := by
  intro fuel
  induction fuel with
  | zero => intro l _ _; rfl
  | succ n ih =>
    intro l h1 h2
    have h34 : ¬(l.ch = 34) := by omega
    have h10 : ¬(l.ch = 10) := by omega
    simp only [stringLoop, h34, h10, if_false]
    exact ih (readChar l) (by simp [readChar, h2]) (by simp [readChar]; omega)

/-- On input `//x` (line comment with no terminating newline), the
line-comment loop runs out of any fuel. -/
theorem lineCommentLoop_slashSlashX :
    ∀ fuel, lineCommentLoop fuel ⟨[47, 47, 120], 0, 1, 47, 1, 1, []⟩ = none
  | 0 => rfl
  | 1 => rfl
  | 2 => rfl
  | (n + 3) => by
    show lineCommentLoop n ⟨[47, 47, 120], 3, 4, 0, 1, 4, []⟩ = none
    exact lineCommentLoop_dead n _ rfl (by decide)

/-- On input `/*x` (unterminated block comment), the block-comment loop runs
out of any fuel. -/
theorem blockCommentLoop_slashStarX :
    ∀ fuel, blockCommentLoop fuel ⟨[47, 42, 120], 0, 1, 47, 1, 1, []⟩ = none
  | 0 => rfl
  | 1 => rfl
  | 2 => rfl
  | (n + 3) => by
    show blockCommentLoop n ⟨[47, 42, 120], 3, 4, 0, 1, 4, []⟩ = none
    exact blockCommentLoop_dead n _ rfl (by decide)

/-- On input `"x` (string with neither closing quote nor newline), the
string loop runs out of any fuel. -/
theorem stringLoop_quoteX :
    ∀ fuel, stringLoop fuel ⟨[34, 120], 1, 2, 120, 1, 2, []⟩ = none
  | 0 => rfl
  | 1 => rfl
  | (n + 2) => by
    show stringLoop n ⟨[34, 120], 3, 4, 0, 1, 4, []⟩ = none
    exact stringLoop_dead n _ rfl (by decide)

theorem nextTokenF_slashSlashX_none :
    ∀ fuel, nextTokenF fuel (newLexer [47, 47, 120]) = none := by
  intro fuel
  match fuel with
  | 0 => rfl
  | n + 1 =>
    have h := lineCommentLoop_slashSlashX n
    simp [nextTokenF, skipWhitespaceF, tokenSwitch, newLexer, readChar, peekChar,
      readLineCommentF, h]

theorem nextTokenF_slashStarX_none :
    ∀ fuel, nextTokenF fuel (newLexer [47, 42, 120]) = none := by
  intro fuel
  match fuel with
  | 0 => rfl
  | n + 1 =>
    have h := blockCommentLoop_slashStarX n
    simp [nextTokenF, skipWhitespaceF, tokenSwitch, newLexer, readChar, peekChar,
      readBlockCommentF, h]

theorem nextTokenF_quoteX_none :
    ∀ fuel, nextTokenF fuel (newLexer [34, 120]) = none := by
  intro fuel
  match fuel with
  | 0 => rfl
  | n + 1 =>
    have h := stringLoop_quoteX n
    simp [nextTokenF, skipWhitespaceF, tokenSwitch, newLexer, readChar, peekChar,
      readStringF, h]

/-- C1: the claim states that `tokens()` terminates on every finite input,
in particular on inputs ending in an unterminated line comment, an
unterminated block comment, or an unterminated string with no newline.  The
code diverges on all three: past end of input `readChar` yields the sentinel
byte 0 forever, which never satisfies the stop condition of
`readLineComment` (CR/LF), `readBlockComment` (`*` then `/`) or `readString`
(quote or LF), so `NextToken` — modelled by the fueled `nextTokenF`, which
returns `some` exactly when the Go loops terminate — fails for every fuel
bound on inputs `//x`, `/*x` and `"x`, and `Tokens` (`tokensF`) does too. -/
theorem c1_totality_fails_on_unterminated_trailers :
    (∀ fuel, nextTokenF fuel (newLexer [47, 47, 120]) = none) ∧
    (∀ fuel, nextTokenF fuel (newLexer [47, 42, 120]) = none) ∧
    (∀ fuel, nextTokenF fuel (newLexer [34, 120]) = none) ∧
    (∀ fuel, tokensF fuel (newLexer [47, 47, 120]) = none) := by
  refine ⟨nextTokenF_slashSlashX_none, nextTokenF_slashStarX_none,
    nextTokenF_quoteX_none, ?_⟩
  intro fuel
  match fuel with
  | 0 => rfl
  | n + 1 => simp [tokensF, nextTokenF_slashSlashX_none n]

example : tokensF 10 (newLexer []) = some [⟨"EOF", [], 0, 0⟩] := by decide

example :
    (tokensF 40 (newLexer [97, 33, 61, 105, 59, 43, 45, 42, 47, 37, 46])).map
      (fun ts => ts.map (fun t => (t.type, t.literal))) =
    some [("IDENT", [97]), ("!=", [33, 61]), ("IDENT", [105]), (";", [59]),
          ("+", [43]), ("-", [45]), ("*", [42]), ("/", [47]), ("%", [37]),
          (".", [46]), ("EOF", [])] := by decide

example :
    tokensF 10 (newLexer [105, 102, 120]) =
    some [⟨"IDENT", [105, 102, 120], 1, 4⟩, ⟨"EOF", [], 0, 0⟩] := by decide

theorem take_takeWhile_length (p : Nat → Bool) :
    ∀ xs : List Nat, xs.take (xs.takeWhile p).length = xs.takeWhile p := by
  intro xs
  induction xs with
  | nil => rfl
  | cons a t ih =>
    by_cases h : p a
    · simp [List.takeWhile_cons, h, ih]
    · simp [List.takeWhile_cons, h]

/-- When the cursor is in range, the remaining input starts with the cached
current byte. -/
theorem drop_eq_ch_cons (l : Lexer) (hco : Coherent l) (hlt : l.position < l.input.length) :
    l.input.drop l.position = l.ch :: l.input.drop (l.position + 1) := by
  have h1 : l.input.drop l.position = l.input[l.position] :: l.input.drop (l.position + 1) :=
    List.drop_eq_getElem_cons hlt
  have h2 : l.ch = l.input[l.position] := by
    have := hco.2
    rw [this, chAt, if_neg (by omega)]
    exact List.getD_eq_getElem l.input 0 hlt
  rw [h2]
  exact h1

/-- Out of range, the cached current byte is the 0 sentinel. -/
theorem ch_zero_of_exhausted (l : Lexer) (hco : Coherent l) (hge : l.input.length ≤ l.position) :
    l.ch = 0 := by
  have := hco.2
  rw [this, chAt, if_pos hge]

/-- Characterization of the identifier loop on coherent states: it consumes
exactly the maximal run of `isLetter` bytes starting at the cursor. -/
theorem identLoop_spec :
    ∀ fuel (l : Lexer), Coherent l → l.position ≤ l.input.length + 1 →
      l.input.length + 2 ≤ l.position + fuel →
      ∃ l2, identLoop fuel l = some l2 ∧
        l2.input = l.input ∧ l2.line = l.line ∧ l2.errors = l.errors ∧ Coherent l2 ∧
        l2.position = l.position + ((l.input.drop l.position).takeWhile isLetter).length ∧
        l2.tokenPosition = l.tokenPosition + ((l.input.drop l.position).takeWhile isLetter).length := by
  intro fuel
  induction fuel with
  | zero => intro l _ hle hfuel; omega
  | succ n ih =>
    intro l hco hle hfuel
    obtain ⟨hq, hch⟩ := hco
    by_cases hl : isLetter l.ch = true
    · have hlt : l.position < l.input.length := by
        by_contra hge
        have h0 : l.ch = 0 := ch_zero_of_exhausted l ⟨hq, hch⟩ (by omega)
        rw [h0] at hl
        exact absurd hl (by decide)
      have hdrop := drop_eq_ch_cons l ⟨hq, hch⟩ hlt
      have hrun : (l.input.drop l.position).takeWhile isLetter =
          l.ch :: ((l.input.drop (l.position + 1)).takeWhile isLetter) := by
        rw [hdrop]
        simp [List.takeWhile_cons, hl]
      obtain ⟨l2, heq, hinp, hline, herr, hco2, hp2, htp2⟩ :=
        ih (readChar l) (coherent_readChar l) (by simp [readChar]; omega)
          (by simp [readChar]; omega)
      have hri : (readChar l).input = l.input := rfl
      have hrp : (readChar l).position = l.position + 1 := by simp [readChar, hq]
      have hrtp : (readChar l).tokenPosition = l.tokenPosition + 1 := rfl
      rw [hri, hrp] at hp2
      rw [hri, hrp, hrtp] at htp2
      refine ⟨l2, ?_, hinp, hline, herr, hco2, ?_, ?_⟩
      · simp only [identLoop, hl, if_true]
        exact heq
      · rw [hp2, hrun]
        simp
        omega
      · rw [htp2, hrun]
        simp
        omega
    · have hrun0 : (l.input.drop l.position).takeWhile isLetter = [] := by
        rcases Nat.lt_or_ge l.position l.input.length with hlt | hge
        · rw [drop_eq_ch_cons l ⟨hq, hch⟩ hlt]
          simp [List.takeWhile_cons, hl]
        · rw [List.drop_eq_nil_of_le hge]
          rfl
      refine ⟨l, ?_, rfl, rfl, rfl, ⟨hq, hch⟩, ?_, ?_⟩
      · simp [identLoop, hl]
      · rw [hrun0]
        simp
      · rw [hrun0]
        simp

/-- Characterization of the string loop on coherent states whose remaining
input consists of stop-free bytes followed by a LF: the loop halts exactly
at the LF, leaving `line` and the error log untouched. -/
theorem stringLoop_spec :
    ∀ (a : List Nat) fuel (l : Lexer) (rest : List Nat), Coherent l →
      l.input.drop l.position = a ++ 10 :: rest →
      (∀ b ∈ a, b ≠ 34 ∧ b ≠ 10) → a.length + 1 ≤ fuel →
      ∃ l2, stringLoop fuel l = some l2 ∧ l2.input = l.input ∧ l2.line = l.line ∧
        l2.errors = l.errors ∧ Coherent l2 ∧
        l2.position = l.position + a.length ∧ l2.ch = 10 ∧
        l2.tokenPosition = l.tokenPosition + a.length := by
  intro a
  induction a with
  | nil =>
    intro fuel l rest hco hdrop _ hfuel
    obtain ⟨hq, hch⟩ := hco
    have hlt : l.position < l.input.length := by
      have hlen : (l.input.drop l.position).length = l.input.length - l.position :=
        List.length_drop _ _
      rw [hdrop] at hlen
      simp at hlen
      omega
    have hcons := drop_eq_ch_cons l ⟨hq, hch⟩ hlt
    rw [hdrop] at hcons
    have hch10 : l.ch = 10 := by
      have := List.head_eq_of_cons_eq hcons.symm
      omega
    obtain ⟨m, rfl⟩ : ∃ m, fuel = m + 1 := ⟨fuel - 1, by omega⟩
    refine ⟨l, ?_, rfl, rfl, rfl, ⟨hq, hch⟩, by simp, hch10, by simp⟩
    simp [stringLoop, hch10]
  | cons b a ih =>
    intro fuel l rest hco hdrop hfree hfuel
    obtain ⟨hq, hch⟩ := hco
    have hlt : l.position < l.input.length := by
      have hlen : (l.input.drop l.position).length = l.input.length - l.position :=
        List.length_drop _ _
      rw [hdrop] at hlen
      simp at hlen
      omega
    have hcons := drop_eq_ch_cons l ⟨hq, hch⟩ hlt
    rw [hdrop] at hcons
    have hchb : l.ch = b := (List.head_eq_of_cons_eq hcons.symm)
    have htail : l.input.drop (l.position + 1) = a ++ 10 :: rest :=
      (List.tail_eq_of_cons_eq hcons.symm)
    have hb := hfree b (by simp)
    obtain ⟨m, rfl⟩ : ∃ m, fuel = m + 1 := ⟨fuel - 1, by omega⟩
    have hri : (readChar l).input = l.input := rfl
    have hrp : (readChar l).position = l.position + 1 := by simp [readChar, hq]
    have hrtp : (readChar l).tokenPosition = l.tokenPosition + 1 := rfl
    obtain ⟨l2, heq, hinp, hline, herr, hco2, hp2, hc2, htp2⟩ :=
      ih m (readChar l) rest (coherent_readChar l)
        (by rw [hri, hrp]; exact htail)
        (fun c hc => hfree c (by simp [hc])) (by simp at hfuel; omega)
    rw [hri] at hinp
    rw [hrp] at hp2
    rw [hrtp] at htp2
    refine ⟨l2, ?_, hinp, hline, herr, hco2, by rw [hp2]; simp; omega, hc2,
      by rw [htp2]; simp; omega⟩
    have h34 : ¬(l.ch = 34) := by omega
    have h10 : ¬(l.ch = 10) := by omega
    simp only [stringLoop, h34, h10, if_false]
    exact heq

/-- The line-comment loop only ever advances the cursor: input, line and
errors are untouched, coherence is preserved, and on success the final byte
is CR or LF. -/
theorem lineCommentLoop_rel :
    ∀ fuel (l l2 : Lexer), lineCommentLoop fuel l = some l2 →
      l2.input = l.input ∧ l2.line = l.line ∧ l2.errors = l.errors ∧
      (l2.ch = 13 ∨ l2.ch = 10) ∧ (Coherent l → Coherent l2 ∧ l.position ≤ l2.position) := by
  intro fuel
  induction fuel with
  | zero => intro l l2 h; exact absurd h (by simp [lineCommentLoop])
  | succ n ih =>
    intro l l2 h
    by_cases hstop : l.ch = 13 ∨ l.ch = 10
    · simp only [lineCommentLoop, hstop, if_true, Option.some.injEq] at h
      subst h
      exact ⟨rfl, rfl, rfl, hstop, fun hco => ⟨hco, Nat.le_refl _⟩⟩
    · simp only [lineCommentLoop, hstop, if_false] at h
      obtain ⟨hinp, hline, herr, hch, hrest⟩ := ih (readChar l) l2 h
      refine ⟨hinp, hline, herr, hch, fun hco => ?_⟩
      obtain ⟨hco2, hpos⟩ := hrest (coherent_readChar l)
      refine ⟨hco2, ?_⟩
      have : (readChar l).position = l.readPosition := rfl
      have hq := hco.1
      omega

/-- The block-comment loop: input and errors are untouched, on success the
cursor rests on `*` followed by `/`, and — from a coherent state — `line`
grows by exactly the number of LF bytes scanned. -/
theorem blockCommentLoop_rel :
    ∀ fuel (l l2 : Lexer), blockCommentLoop fuel l = some l2 →
      l2.input = l.input ∧ l2.errors = l.errors ∧ l2.ch = 42 ∧ peekChar l2 = 47 ∧
      (Coherent l → Coherent l2 ∧ l.position ≤ l2.position ∧
        l2.line = l.line +
          ((l.input.drop l.position).take (l2.position - l.position)).count 10) := by
  intro fuel
  induction fuel with
  | zero => intro l l2 h; exact absurd h (by simp [blockCommentLoop])
  | succ n ih =>
    intro l l2 h
    simp only [blockCommentLoop] at h
    by_cases hstop : l.ch = 42 ∧ peekChar l = 47
    · rw [if_pos hstop, Option.some.injEq] at h
      subst h
      refine ⟨rfl, rfl, hstop.1, hstop.2, fun hco => ⟨hco, Nat.le_refl _, by simp⟩⟩
    · rw [if_neg hstop] at h
      by_cases h10 : l.ch = 10
      · rw [if_pos h10] at h
        obtain ⟨hinp, herr, hch, hpk, hrest⟩ := ih _ l2 h
        refine ⟨hinp, herr, hch, hpk, fun hco => ?_⟩
        obtain ⟨hq, hchv⟩ := hco
        have hlt : l.position < l.input.length := by
          by_contra hge
          have h0 : l.ch = 0 := ch_zero_of_exhausted l ⟨hq, hchv⟩ (by omega)
          omega
        have hdrop := drop_eq_ch_cons l ⟨hq, hchv⟩ hlt
        obtain ⟨hco2, hmono, hline⟩ := hrest (coherent_readChar _)
        have hp1 : (readChar { l with line := l.line + 1 }).position = l.position + 1 := by
          simp [readChar, hq]
        have hl1 : (readChar { l with line := l.line + 1 }).line = l.line + 1 := rfl
        have hi1 : (readChar { l with line := l.line + 1 }).input = l.input := rfl
        rw [hp1] at hmono hline
        rw [hl1, hi1] at hline
        refine ⟨hco2, by omega, ?_⟩
        have hq2 : l2.position - l.position = (l2.position - (l.position + 1)) + 1 := by omega
        rw [hdrop, hq2, List.take_succ_cons, h10]
        simp [List.count_cons]
        omega
      · rw [if_neg h10] at h
        obtain ⟨hinp, herr, hch, hpk, hrest⟩ := ih _ l2 h
        refine ⟨hinp, herr, hch, hpk, fun hco => ?_⟩
        obtain ⟨hq, hchv⟩ := hco
        obtain ⟨hco2, hmono, hline⟩ := hrest (coherent_readChar _)
        have hp1 : (readChar l).position = l.position + 1 := by simp [readChar, hq]
        have hl1 : (readChar l).line = l.line := rfl
        have hi1 : (readChar l).input = l.input := rfl
        rw [hp1] at hmono hline
        rw [hl1, hi1] at hline
        refine ⟨hco2, by omega, ?_⟩
        rcases Nat.lt_or_ge l.position l.input.length with hlt | hge
        · have hdrop := drop_eq_ch_cons l ⟨hq, hchv⟩ hlt
          have hq2 : l2.position - l.position = (l2.position - (l.position + 1)) + 1 := by omega
          rw [hdrop, hq2, List.take_succ_cons]
          simp [List.count_cons, h10]
          omega
        · have hd0 : l.input.drop l.position = ([] : List Nat) := List.drop_eq_nil_of_le hge
          have hd1 : l.input.drop (l.position + 1) = ([] : List Nat) :=
            List.drop_eq_nil_of_le (by omega)
          rw [hd0]
          rw [hd1] at hline
          simp at hline ⊢
          omega

theorem skipWhitespaceF_adv :
    ∀ fuel (l l2 : Lexer), skipWhitespaceF fuel l = some l2 →
      l2 = l ∨ l2.readPosition = l2.position + 1 := by
  intro fuel
  induction fuel with
  | zero => intro l l2 h; exact absurd h (by simp [skipWhitespaceF])
  | succ n ih =>
    intro l l2 h
    simp only [skipWhitespaceF] at h
    by_cases hc : l.ch = 32 ∨ l.ch = 9 ∨ l.ch = 13
    · rw [if_pos hc] at h
      rcases ih _ _ h with h1 | h1
      · right; rw [h1]; rfl
      · right; exact h1
    · rw [if_neg hc, Option.some.injEq] at h
      left; exact h.symm

theorem identLoop_adv :
    ∀ fuel (l l2 : Lexer), identLoop fuel l = some l2 →
      l2 = l ∨ l2.readPosition = l2.position + 1 := by
  intro fuel
  induction fuel with
  | zero => intro l l2 h; exact absurd h (by simp [identLoop])
  | succ n ih =>
    intro l l2 h
    simp only [identLoop] at h
    by_cases hc : isLetter l.ch = true
    · rw [if_pos hc] at h
      rcases ih _ _ h with h1 | h1
      · right; rw [h1]; rfl
      · right; exact h1
    · rw [if_neg hc, Option.some.injEq] at h
      left; exact h.symm

theorem digitLoop_adv :
    ∀ fuel (l l2 : Lexer), digitLoop fuel l = some l2 →
      l2 = l ∨ l2.readPosition = l2.position + 1 := by
  intro fuel
  induction fuel with
  | zero => intro l l2 h; exact absurd h (by simp [digitLoop])
  | succ n ih =>
    intro l l2 h
    simp only [digitLoop] at h
    by_cases hc : isDigit l.ch = true
    · rw [if_pos hc] at h
      rcases ih _ _ h with h1 | h1
      · right; rw [h1]; rfl
      · right; exact h1
    · rw [if_neg hc, Option.some.injEq] at h
      left; exact h.symm

/-- The identifier branch runs the loop at least once, so the cursor
invariant holds outright. -/
theorem identLoop_adv_of_letter (fuel : Nat) (l l2 : Lexer)
    (h : identLoop fuel l = some l2) (hl : isLetter l.ch = true) :
    l2.readPosition = l2.position + 1 := by
  match fuel with
  | 0 => exact absurd h (by simp [identLoop])
  | n + 1 =>
    simp only [identLoop, hl, if_true] at h
    rcases identLoop_adv n _ _ h with h1 | h1
    · rw [h1]; rfl
    · exact h1

theorem digitLoop_adv_of_digit (fuel : Nat) (l l2 : Lexer)
    (h : digitLoop fuel l = some l2) (hl : isDigit l.ch = true) :
    l2.readPosition = l2.position + 1 := by
  match fuel with
  | 0 => exact absurd h (by simp [digitLoop])
  | n + 1 =>
    simp only [digitLoop, hl, if_true] at h
    rcases digitLoop_adv n _ _ h with h1 | h1
    · rw [h1]; rfl
    · exact h1

/-- Whatever `NextToken` returns, the resulting state satisfies the cursor
invariant `readPosition = position + 1`: every exit path ends in a
`readChar` (the trailing advance) or in at least one loop iteration. -/
theorem tokenSwitch_adv :
    ∀ fuel (l : Lexer) (t : Token) (l2 : Lexer), tokenSwitch fuel l = some (t, l2) →
      l2.readPosition = l2.position + 1 := by
  intro fuel
  induction fuel with
  | zero =>
    intro l t l2 h
    rw [tokenSwitch] at h
    exact Option.noConfusion h
  | succ n ih =>
    intro l t l2 h
    rw [tokenSwitch] at h
    by_cases c0 : l.ch = 10
    · rw [if_pos c0] at h
      rcases hs : skipWhitespaceF n (readChar { l with line := l.line + 1 }) with _ | l3
      · rw [hs] at h
        exact Option.noConfusion h
      · rw [hs] at h
        exact ih _ _ _ h
    · rw [if_neg c0] at h
      by_cases c1 : l.ch = 61
      · rw [if_pos c1] at h
        by_cases p1 : peekChar l = 61
        · rw [if_pos p1] at h
          cases h
          rfl
        · rw [if_neg p1] at h
          cases h
          rfl
      · rw [if_neg c1] at h
        by_cases c2 : l.ch = 43
        · rw [if_pos c2] at h
          by_cases p2a : peekChar l = 43
          · rw [if_pos p2a] at h
            cases h
            rfl
          · rw [if_neg p2a] at h
            by_cases p2b : peekChar l = 61
            · rw [if_pos p2b] at h
              cases h
              rfl
            · rw [if_neg p2b] at h
              cases h
              rfl
        · rw [if_neg c2] at h
          by_cases c3 : l.ch = 45
          · rw [if_pos c3] at h
            by_cases p3a : peekChar l = 45
            · rw [if_pos p3a] at h
              cases h
              rfl
            · rw [if_neg p3a] at h
              by_cases p3b : peekChar l = 61
              · rw [if_pos p3b] at h
                cases h
                rfl
              · rw [if_neg p3b] at h
                cases h
                rfl
          · rw [if_neg c3] at h
            by_cases c4 : l.ch = 42
            · rw [if_pos c4] at h
              cases h
              rfl
            · rw [if_neg c4] at h
              by_cases c5 : l.ch = 47
              · rw [if_pos c5] at h
                by_cases p5a : peekChar l = 47
                · rw [if_pos p5a] at h
                  rcases hm : readLineCommentF n l with _ | ⟨lit, l3⟩
                  · rw [hm] at h
                    exact Option.noConfusion h
                  · rw [hm] at h
                    cases h
                    rfl
                · rw [if_neg p5a] at h
                  by_cases p5b : peekChar l = 42
                  · rw [if_pos p5b] at h
                    rcases hm : readBlockCommentF n l with _ | ⟨lit, l3⟩
                    · rw [hm] at h
                      exact Option.noConfusion h
                    · rw [hm] at h
                      cases h
                      rfl
                  · rw [if_neg p5b] at h
                    cases h
                    rfl
              · rw [if_neg c5] at h
                by_cases c6 : l.ch = 37
                · rw [if_pos c6] at h
                  cases h
                  rfl
                · rw [if_neg c6] at h
                  by_cases c7 : l.ch = 33
                  · rw [if_pos c7] at h
                    by_cases p7 : peekChar l = 61
                    · rw [if_pos p7] at h
                      cases h
                      rfl
                    · rw [if_neg p7] at h
                      cases h
                      rfl
                  · rw [if_neg c7] at h
                    by_cases c8 : l.ch = 60
                    · rw [if_pos c8] at h
                      by_cases p8 : peekChar l = 61
                      · rw [if_pos p8] at h
                        cases h
                        rfl
                      · rw [if_neg p8] at h
                        cases h
                        rfl
                    · rw [if_neg c8] at h
                      by_cases c9 : l.ch = 62
                      · rw [if_pos c9] at h
                        by_cases p9 : peekChar l = 61
                        · rw [if_pos p9] at h
                          cases h
                          rfl
                        · rw [if_neg p9] at h
                          cases h
                          rfl
                      · rw [if_neg c9] at h
                        by_cases c10 : l.ch = 40
                        · rw [if_pos c10] at h
                          cases h
                          rfl
                        · rw [if_neg c10] at h
                          by_cases c11 : l.ch = 41
                          · rw [if_pos c11] at h
                            cases h
                            rfl
                          · rw [if_neg c11] at h
                            by_cases c12 : l.ch = 123
                            · rw [if_pos c12] at h
                              cases h
                              rfl
                            · rw [if_neg c12] at h
                              by_cases c13 : l.ch = 125
                              · rw [if_pos c13] at h
                                cases h
                                rfl
                              · rw [if_neg c13] at h
                                by_cases c14 : l.ch = 91
                                · rw [if_pos c14] at h
                                  cases h
                                  rfl
                                · rw [if_neg c14] at h
                                  by_cases c15 : l.ch = 93
                                  · rw [if_pos c15] at h
                                    cases h
                                    rfl
                                  · rw [if_neg c15] at h
                                    by_cases c16 : l.ch = 44
                                    · rw [if_pos c16] at h
                                      cases h
                                      rfl
                                    · rw [if_neg c16] at h
                                      by_cases c17 : l.ch = 46
                                      · rw [if_pos c17] at h
                                        cases h
                                        rfl
                                      · rw [if_neg c17] at h
                                        by_cases c18 : l.ch = 59
                                        · rw [if_pos c18] at h
                                          cases h
                                          rfl
                                        · rw [if_neg c18] at h
                                          by_cases c19 : l.ch = 0
                                          · rw [if_pos c19] at h
                                            cases h
                                            rfl
                                          · rw [if_neg c19] at h
                                            by_cases c20 : l.ch = 34
                                            · rw [if_pos c20] at h
                                              rcases hm : readStringF n l with _ | ⟨lit, err, l3⟩
                                              · rw [hm] at h
                                                exact Option.noConfusion h
                                              · rw [hm] at h
                                                cases h
                                                rfl
                                            · rw [if_neg c20] at h
                                              by_cases c21 : isLetter l.ch = true
                                              · rw [if_pos c21] at h
                                                rcases hm : identLoop n l with _ | l3
                                                · rw [hm] at h
                                                  exact Option.noConfusion h
                                                · rw [hm] at h
                                                  cases h
                                                  exact identLoop_adv_of_letter n l _ hm c21
                                              · rw [if_neg c21] at h
                                                by_cases c22 : isDigit l.ch = true
                                                · rw [if_pos c22] at h
                                                  rcases hm : digitLoop n l with _ | l3
                                                  · rw [hm] at h
                                                    exact Option.noConfusion h
                                                  · rw [hm] at h
                                                    cases h
                                                    exact digitLoop_adv_of_digit n l _ hm c22
                                                · rw [if_neg c22] at h
                                                  cases h
                                                  rfl

/-- `NextToken` always leaves the cursor invariant in place. -/
theorem nextTokenF_adv (fuel : Nat) (l : Lexer) (t : Token) (l2 : Lexer)
    (h : nextTokenF fuel l = some (t, l2)) : l2.readPosition = l2.position + 1 := by
  rw [nextTokenF] at h
  rcases hs : skipWhitespaceF fuel l with _ | l1
  · rw [hs] at h
    exact Option.noConfusion h
  · rw [hs] at h
    exact tokenSwitch_adv fuel l1 t l2 h

/-- When the current byte is not horizontal whitespace, the whitespace skip
is a no-op and `NextToken` goes straight to the switch. -/
theorem nextTokenF_not_ws (fuel : Nat) (l : Lexer)
    (h : ¬(l.ch = 32 ∨ l.ch = 9 ∨ l.ch = 13)) :
    nextTokenF (fuel + 1) l = tokenSwitch (fuel + 1) l := by
  rw [nextTokenF]
  have hs : skipWhitespaceF (fuel + 1) l = some l := by
    rw [skipWhitespaceF, if_neg h]
  rw [hs]

theorem readChar_line (l : Lexer) : (readChar l).line = l.line := rfl

theorem readChar_tokenPosition (l : Lexer) :
    (readChar l).tokenPosition = l.tokenPosition + 1 := rfl

/-- C8: whenever the current byte and the peeked byte form one of the eight
two-character operators, a single combined token is emitted whose literal is
exactly the two matched bytes and both bytes are consumed; otherwise the
single-character operator token is emitted carrying just the current byte;
and the input `a!=i;+-*/%.` tokenizes to
[IDENT a, !=, IDENT i, ;, +, -, *, /, %, ., EOF]. -/
theorem c8_operator_literals_round_trip :
    (∀ fuel (l : Lexer), l.ch = 61 → peekChar l = 61 →
      nextTokenF (fuel + 1 + 1) l =
        some (⟨"==", [61, 61], l.line, l.tokenPosition + 1⟩, readChar (readChar l))) ∧
    (∀ fuel (l : Lexer), l.ch = 43 → peekChar l = 43 →
      nextTokenF (fuel + 1 + 1) l =
        some (⟨"++", [43, 43], l.line, l.tokenPosition + 1⟩, readChar (readChar l))) ∧
    (∀ fuel (l : Lexer), l.ch = 43 → peekChar l = 61 →
      nextTokenF (fuel + 1 + 1) l =
        some (⟨"+=", [43, 61], l.line, l.tokenPosition + 1⟩, readChar (readChar l))) ∧
    (∀ fuel (l : Lexer), l.ch = 45 → peekChar l = 45 →
      nextTokenF (fuel + 1 + 1) l =
        some (⟨"--", [45, 45], l.line, l.tokenPosition + 1⟩, readChar (readChar l))) ∧
    (∀ fuel (l : Lexer), l.ch = 45 → peekChar l = 61 →
      nextTokenF (fuel + 1 + 1) l =
        some (⟨"-=", [45, 61], l.line, l.tokenPosition + 1⟩, readChar (readChar l))) ∧
    (∀ fuel (l : Lexer), l.ch = 33 → peekChar l = 61 →
      nextTokenF (fuel + 1 + 1) l =
        some (⟨"!=", [33, 61], l.line, l.tokenPosition + 1⟩, readChar (readChar l))) ∧
    (∀ fuel (l : Lexer), l.ch = 60 → peekChar l = 61 →
      nextTokenF (fuel + 1 + 1) l =
        some (⟨"<=", [60, 61], l.line, l.tokenPosition + 1⟩, readChar (readChar l))) ∧
    (∀ fuel (l : Lexer), l.ch = 62 → peekChar l = 61 →
      nextTokenF (fuel + 1 + 1) l =
        some (⟨">=", [62, 61], l.line, l.tokenPosition + 1⟩, readChar (readChar l))) ∧
    (∀ fuel (l : Lexer), l.ch = 61 → ¬ peekChar l = 61 →
      nextTokenF (fuel + 1 + 1) l =
        some (⟨"=", [61], l.line, l.position⟩, readChar l)) ∧
    (∀ fuel (l : Lexer), l.ch = 43 → ¬ peekChar l = 43 → ¬ peekChar l = 61 →
      nextTokenF (fuel + 1 + 1) l =
        some (⟨"+", [43], l.line, l.position⟩, readChar l)) ∧
    (∀ fuel (l : Lexer), l.ch = 45 → ¬ peekChar l = 45 → ¬ peekChar l = 61 →
      nextTokenF (fuel + 1 + 1) l =
        some (⟨"-", [45], l.line, l.position⟩, readChar l)) ∧
    (∀ fuel (l : Lexer), l.ch = 33 → ¬ peekChar l = 61 →
      nextTokenF (fuel + 1 + 1) l =
        some (⟨"!", [33], l.line, l.position⟩, readChar l)) ∧
    (∀ fuel (l : Lexer), l.ch = 60 → ¬ peekChar l = 61 →
      nextTokenF (fuel + 1 + 1) l =
        some (⟨"<", [60], l.line, l.position⟩, readChar l)) ∧
    (∀ fuel (l : Lexer), l.ch = 62 → ¬ peekChar l = 61 →
      nextTokenF (fuel + 1 + 1) l =
        some (⟨">", [62], l.line, l.position⟩, readChar l)) ∧
    (∀ fuel (l : Lexer), l.ch = 47 → ¬ peekChar l = 47 → ¬ peekChar l = 42 →
      nextTokenF (fuel + 1 + 1) l =
        some (⟨"/", [47], l.line, l.position⟩, readChar l)) ∧
    (tokensF 40 (newLexer [97, 33, 61, 105, 59, 43, 45, 42, 47, 37, 46])).map
      (fun ts => ts.map (fun t => (t.type, t.literal))) =
      some [("IDENT", [97]), ("!=", [33, 61]), ("IDENT", [105]), (";", [59]),
            ("+", [43]), ("-", [45]), ("*", [42]), ("/", [47]), ("%", [37]),
            (".", [46]), ("EOF", [])] := by
  refine ⟨?_, ?_, ?_, ?_, ?_, ?_, ?_, ?_, ?_, ?_, ?_, ?_, ?_, ?_, ?_, ?_⟩
  · intro fuel l h1 h2
    rw [nextTokenF_not_ws _ _ (by omega), tokenSwitch, if_neg (by omega : ¬ l.ch = 10), if_pos h1, if_pos h2]
    simp only [readChar_ch_eq_peekChar, readChar_line, readChar_tokenPosition, h1, h2]
  · intro fuel l h1 h2
    rw [nextTokenF_not_ws _ _ (by omega), tokenSwitch, if_neg (by omega : ¬ l.ch = 10), if_neg (by omega : ¬ l.ch = 61), if_pos h1, if_pos h2]
    simp only [readChar_ch_eq_peekChar, readChar_line, readChar_tokenPosition, h1, h2]
  · intro fuel l h1 h2
    rw [nextTokenF_not_ws _ _ (by omega), tokenSwitch, if_neg (by omega : ¬ l.ch = 10), if_neg (by omega : ¬ l.ch = 61), if_pos h1, if_neg (by omega : ¬ peekChar l = 43), if_pos h2]
    simp only [readChar_ch_eq_peekChar, readChar_line, readChar_tokenPosition, h1, h2]
  · intro fuel l h1 h2
    rw [nextTokenF_not_ws _ _ (by omega), tokenSwitch, if_neg (by omega : ¬ l.ch = 10), if_neg (by omega : ¬ l.ch = 61), if_neg (by omega : ¬ l.ch = 43), if_pos h1, if_pos h2]
    simp only [readChar_ch_eq_peekChar, readChar_line, readChar_tokenPosition, h1, h2]
  · intro fuel l h1 h2
    rw [nextTokenF_not_ws _ _ (by omega), tokenSwitch, if_neg (by omega : ¬ l.ch = 10), if_neg (by omega : ¬ l.ch = 61), if_neg (by omega : ¬ l.ch = 43), if_pos h1, if_neg (by omega : ¬ peekChar l = 45), if_pos h2]
    simp only [readChar_ch_eq_peekChar, readChar_line, readChar_tokenPosition, h1, h2]
  · intro fuel l h1 h2
    rw [nextTokenF_not_ws _ _ (by omega), tokenSwitch, if_neg (by omega : ¬ l.ch = 10), if_neg (by omega : ¬ l.ch = 61), if_neg (by omega : ¬ l.ch = 43), if_neg (by omega : ¬ l.ch = 45), if_neg (by omega : ¬ l.ch = 42), if_neg (by omega : ¬ l.ch = 47), if_neg (by omega : ¬ l.ch = 37), if_pos h1, if_pos h2]
    simp only [readChar_ch_eq_peekChar, readChar_line, readChar_tokenPosition, h1, h2]
  · intro fuel l h1 h2
    rw [nextTokenF_not_ws _ _ (by omega), tokenSwitch, if_neg (by omega : ¬ l.ch = 10), if_neg (by omega : ¬ l.ch = 61), if_neg (by omega : ¬ l.ch = 43), if_neg (by omega : ¬ l.ch = 45), if_neg (by omega : ¬ l.ch = 42), if_neg (by omega : ¬ l.ch = 47), if_neg (by omega : ¬ l.ch = 37), if_neg (by omega : ¬ l.ch = 33), if_pos h1, if_pos h2]
    simp only [readChar_ch_eq_peekChar, readChar_line, readChar_tokenPosition, h1, h2]
  · intro fuel l h1 h2
    rw [nextTokenF_not_ws _ _ (by omega), tokenSwitch, if_neg (by omega : ¬ l.ch = 10), if_neg (by omega : ¬ l.ch = 61), if_neg (by omega : ¬ l.ch = 43), if_neg (by omega : ¬ l.ch = 45), if_neg (by omega : ¬ l.ch = 42), if_neg (by omega : ¬ l.ch = 47), if_neg (by omega : ¬ l.ch = 37), if_neg (by omega : ¬ l.ch = 33), if_neg (by omega : ¬ l.ch = 60), if_pos h1, if_pos h2]
    simp only [readChar_ch_eq_peekChar, readChar_line, readChar_tokenPosition, h1, h2]
  · intro fuel l h1 h2
    rw [nextTokenF_not_ws _ _ (by omega), tokenSwitch, if_neg (by omega : ¬ l.ch = 10), if_pos h1, if_neg h2]
    simp only [h1]
  · intro fuel l h1 h2 h3
    rw [nextTokenF_not_ws _ _ (by omega), tokenSwitch, if_neg (by omega : ¬ l.ch = 10), if_neg (by omega : ¬ l.ch = 61), if_pos h1, if_neg h2, if_neg h3]
    simp only [h1]
  · intro fuel l h1 h2 h3
    rw [nextTokenF_not_ws _ _ (by omega), tokenSwitch, if_neg (by omega : ¬ l.ch = 10), if_neg (by omega : ¬ l.ch = 61), if_neg (by omega : ¬ l.ch = 43), if_pos h1, if_neg h2, if_neg h3]
    simp only [h1]
  · intro fuel l h1 h2
    rw [nextTokenF_not_ws _ _ (by omega), tokenSwitch, if_neg (by omega : ¬ l.ch = 10), if_neg (by omega : ¬ l.ch = 61), if_neg (by omega : ¬ l.ch = 43), if_neg (by omega : ¬ l.ch = 45), if_neg (by omega : ¬ l.ch = 42), if_neg (by omega : ¬ l.ch = 47), if_neg (by omega : ¬ l.ch = 37), if_pos h1, if_neg h2]
    simp only [h1]
  · intro fuel l h1 h2
    rw [nextTokenF_not_ws _ _ (by omega), tokenSwitch, if_neg (by omega : ¬ l.ch = 10), if_neg (by omega : ¬ l.ch = 61), if_neg (by omega : ¬ l.ch = 43), if_neg (by omega : ¬ l.ch = 45), if_neg (by omega : ¬ l.ch = 42), if_neg (by omega : ¬ l.ch = 47), if_neg (by omega : ¬ l.ch = 37), if_neg (by omega : ¬ l.ch = 33), if_pos h1, if_neg h2]
    simp only [h1]
  · intro fuel l h1 h2
    rw [nextTokenF_not_ws _ _ (by omega), tokenSwitch, if_neg (by omega : ¬ l.ch = 10), if_neg (by omega : ¬ l.ch = 61), if_neg (by omega : ¬ l.ch = 43), if_neg (by omega : ¬ l.ch = 45), if_neg (by omega : ¬ l.ch = 42), if_neg (by omega : ¬ l.ch = 47), if_neg (by omega : ¬ l.ch = 37), if_neg (by omega : ¬ l.ch = 33), if_neg (by omega : ¬ l.ch = 60), if_pos h1, if_neg h2]
    simp only [h1]
  · intro fuel l h1 h2 h3
    rw [nextTokenF_not_ws _ _ (by omega), tokenSwitch, if_neg (by omega : ¬ l.ch = 10), if_neg (by omega : ¬ l.ch = 61), if_neg (by omega : ¬ l.ch = 43), if_neg (by omega : ¬ l.ch = 45), if_neg (by omega : ¬ l.ch = 42), if_pos h1, if_neg h2, if_neg h3]
    simp only [h1]
  · decide

theorem c8_operator_literals_round_trip_witness :
    nextTokenF 5 (newLexer [33, 61]) =
      some (⟨"!=", [33, 61], 1, 2⟩, readChar (readChar (newLexer [33, 61]))) :=
  c8_operator_literals_round_trip.2.2.2.2.2.1 3 (newLexer [33, 61]) rfl rfl

/-- `isLetter` membership in arithmetic form. -/
theorem isLetter_ranges (c : Nat) (h : isLetter c = true) :
    (65 ≤ c ∧ c ≤ 90) ∨ (97 ≤ c ∧ c ≤ 122) ∨ c = 95 ∨ c = 170 ∨ c = 181 ∨ c = 186 ∨
    (192 ≤ c ∧ c ≤ 214) ∨ (216 ≤ c ∧ c ≤ 246) ∨ (248 ≤ c ∧ c ≤ 255) := by
  simp only [isLetter, Bool.or_eq_true, Bool.and_eq_true, decide_eq_true_eq] at h
  omega

/-- `NextToken` on a letter byte: the token is the maximal `isLetter` run
starting at the cursor, classified by `lookupIdent` of the whole run, and
its Position field is the byte counter measured after the run. -/
theorem nextTokenF_identifier :
    ∀ fuel (l : Lexer), Coherent l → isLetter l.ch = true →
      l.input.length + 1 ≤ fuel →
      ∃ l2, nextTokenF (fuel + 1 + 1) l =
        some (⟨lookupIdent ((l.input.drop l.position).takeWhile isLetter),
               (l.input.drop l.position).takeWhile isLetter, l.line,
               l.tokenPosition + ((l.input.drop l.position).takeWhile isLetter).length⟩,
          l2) ∧
        l2.position = l.position + ((l.input.drop l.position).takeWhile isLetter).length := by
  intro fuel l hco hl hfuel
  obtain ⟨hq, hch⟩ := hco
  have hnum := isLetter_ranges _ hl
  have hlt : l.position < l.input.length := by
    by_contra hge
    have h0 : l.ch = 0 := ch_zero_of_exhausted l ⟨hq, hch⟩ (by omega)
    omega
  obtain ⟨l2, heq, hinp, hline, herr, hco2, hp2, htp2⟩ :=
    identLoop_spec (fuel + 1) l ⟨hq, hch⟩ (by omega) (by omega)
  have hlit : substring l2.input l.position l2.position =
      (l.input.drop l.position).takeWhile isLetter := by
    rw [hinp, hp2, substring]
    have harith : l.position + ((l.input.drop l.position).takeWhile isLetter).length -
        l.position = ((l.input.drop l.position).takeWhile isLetter).length := by omega
    rw [harith]
    exact take_takeWhile_length isLetter _
  refine ⟨l2, ?_, by rw [hp2]⟩
  rw [nextTokenF_not_ws _ _ (by omega), tokenSwitch,
    if_neg (by omega : ¬ l.ch = 10), if_neg (by omega : ¬ l.ch = 61),
    if_neg (by omega : ¬ l.ch = 43), if_neg (by omega : ¬ l.ch = 45),
    if_neg (by omega : ¬ l.ch = 42), if_neg (by omega : ¬ l.ch = 47),
    if_neg (by omega : ¬ l.ch = 37), if_neg (by omega : ¬ l.ch = 33),
    if_neg (by omega : ¬ l.ch = 60), if_neg (by omega : ¬ l.ch = 62),
    if_neg (by omega : ¬ l.ch = 40), if_neg (by omega : ¬ l.ch = 41),
    if_neg (by omega : ¬ l.ch = 123), if_neg (by omega : ¬ l.ch = 125),
    if_neg (by omega : ¬ l.ch = 91), if_neg (by omega : ¬ l.ch = 93),
    if_neg (by omega : ¬ l.ch = 44), if_neg (by omega : ¬ l.ch = 46),
    if_neg (by omega : ¬ l.ch = 59), if_neg (by omega : ¬ l.ch = 0),
    if_neg (by omega : ¬ l.ch = 34), if_pos hl, heq]
  show some ((⟨lookupIdent (substring l2.input l.position l2.position),
      substring l2.input l.position l2.position, l2.line, l2.tokenPosition⟩ : Token), l2) =
    some ((⟨lookupIdent ((l.input.drop l.position).takeWhile isLetter),
           (l.input.drop l.position).takeWhile isLetter, l.line,
           l.tokenPosition + ((l.input.drop l.position).takeWhile isLetter).length⟩ : Token), l2)
  rw [hlit, hline, htp2]

/-- C9: a maximal run of identifier bytes is read first and only then looked
up in the keyword table: the emitted token's kind is `lookupIdent` of the
whole run and its literal is the whole run; the table maps exactly the eight
keywords to their own spelling as kind tag, everything else to IDENT; and
`ifx` lexes as one IDENT `ifx` while `if` lexes as the keyword `if`. -/
theorem c9_keyword_lookup_after_full_run :
    (∀ fuel (l : Lexer), Coherent l → isLetter l.ch = true →
      l.input.length + 1 ≤ fuel →
      ∃ l2, nextTokenF (fuel + 1 + 1) l =
        some (⟨lookupIdent ((l.input.drop l.position).takeWhile isLetter),
               (l.input.drop l.position).takeWhile isLetter, l.line,
               l.tokenPosition + ((l.input.drop l.position).takeWhile isLetter).length⟩,
          l2) ∧
        l2.position = l.position + ((l.input.drop l.position).takeWhile isLetter).length) ∧
    (lookupIdent [105, 102] = "if" ∧ lookupIdent [101, 108, 115, 101] = "else" ∧
     lookupIdent [119, 104, 105, 108, 101] = "while" ∧
     lookupIdent [114, 101, 116, 117, 114, 110] = "return" ∧
     lookupIdent [105, 110, 116] = "int" ∧ lookupIdent [118, 111, 105, 100] = "void" ∧
     lookupIdent [102, 111, 114] = "for" ∧
     lookupIdent [112, 114, 105, 110, 116, 102] = "printf" ∧
     lookupIdent [105, 102, 120] = "IDENT") ∧
    (tokensF 10 (newLexer [105, 102, 120])).map
      (fun ts => ts.map (fun t => (t.type, t.literal))) =
      some [("IDENT", [105, 102, 120]), ("EOF", [])] ∧
    (tokensF 10 (newLexer [105, 102])).map
      (fun ts => ts.map (fun t => (t.type, t.literal))) =
      some [("if", [105, 102]), ("EOF", [])] := by
  exact ⟨nextTokenF_identifier, by decide, by decide, by decide⟩

theorem c9_keyword_lookup_after_full_run_witness :
    ∃ l2, nextTokenF 6 (newLexer [105, 102, 120]) =
      some (⟨lookupIdent (((newLexer [105, 102, 120]).input.drop
               (newLexer [105, 102, 120]).position).takeWhile isLetter),
             ((newLexer [105, 102, 120]).input.drop
               (newLexer [105, 102, 120]).position).takeWhile isLetter,
             (newLexer [105, 102, 120]).line,
             (newLexer [105, 102, 120]).tokenPosition +
               (((newLexer [105, 102, 120]).input.drop
                 (newLexer [105, 102, 120]).position).takeWhile isLetter).length⟩,
        l2) ∧
      l2.position = (newLexer [105, 102, 120]).position +
        (((newLexer [105, 102, 120]).input.drop
          (newLexer [105, 102, 120]).position).takeWhile isLetter).length :=
  c9_keyword_lookup_after_full_run.1 4 (newLexer [105, 102, 120]) ⟨rfl, rfl⟩ (by decide)
    (by decide)

theorem readChar_input (l : Lexer) : (readChar l).input = l.input := rfl

theorem readChar_errors (l : Lexer) : (readChar l).errors = l.errors := rfl

theorem addError_line (l : Lexer) (m : String) : (addError l m).line = l.line := rfl

theorem addError_tokenPosition (l : Lexer) (m : String) :
    (addError l m).tokenPosition = l.tokenPosition := rfl

theorem addError_errors (l : Lexer) (m : String) :
    (addError l m).errors = l.errors ++
      ["[" ++ Nat.repr l.line ++ ":" ++ Nat.repr l.tokenPosition ++ "] " ++ m] := rfl

/-- `NextToken` on a coherent state at an opening quote whose string is
terminated early by a LF: the STRING token carries the bytes strictly
between the quote and the LF, exactly one formatted error is appended, the
LF itself is consumed by the trailing advance of the same call, and the
line counter is not incremented. -/
theorem nextTokenF_unterminated_string :
    ∀ (a rest : List Nat) fuel (l : Lexer), Coherent l → l.ch = 34 →
      l.input.drop l.position = 34 :: (a ++ 10 :: rest) →
      (∀ b ∈ a, b ≠ 34 ∧ b ≠ 10) → a.length + 1 ≤ fuel →
      ∃ l', nextTokenF (fuel + 1 + 1) l =
          some (⟨"STRING", a, l.line, l.tokenPosition + 1 + a.length⟩, l') ∧
        l'.errors = l.errors ++
          ["[" ++ Nat.repr l.line ++ ":" ++
           Nat.repr (l.tokenPosition + 1 + a.length) ++ "] non-terminated string"] ∧
        l'.position = l.position + 1 + a.length + 1 ∧ l'.line = l.line := by
  intro a rest fuel l hco h34 hdrop hfree hfuel
  obtain ⟨hq, hch⟩ := hco
  have hlen : (l.input.drop l.position).length = l.input.length - l.position :=
    List.length_drop _ _
  have hlt : l.position < l.input.length := by
    rw [hdrop] at hlen
    simp at hlen
    omega
  have hcons := drop_eq_ch_cons l ⟨hq, hch⟩ hlt
  have htail : l.input.drop (l.position + 1) = a ++ 10 :: rest := by
    rw [hcons] at hdrop
    exact List.tail_eq_of_cons_eq hdrop
  have hrcpos : (readChar l).position = l.position + 1 := by simp [readChar, hq]
  have hd1 : (readChar l).input.drop (readChar l).position = a ++ 10 :: rest := by
    rw [readChar_input, hrcpos]
    exact htail
  obtain ⟨l2, hsl, hinp2, hline2, herr2, hco2, hp2, hch2, htp2⟩ :=
    stringLoop_spec a (fuel + 1) (readChar l) rest (coherent_readChar l) hd1 hfree
      (by omega)
  rw [readChar_input] at hinp2
  rw [hrcpos] at hp2
  rw [readChar_line] at hline2
  rw [readChar_errors] at herr2
  rw [readChar_tokenPosition] at htp2
  have hrs : readStringF (fuel + 1) l =
      some (substring l2.input (l.position + 1) l2.position, true, l2) := by
    rw [readStringF, hsl]
    show (if l2.ch = 34 then
        some (substring l2.input (l.position + 1) l2.position, false, l2)
      else some (substring l2.input (l.position + 1) l2.position, true, l2)) =
      some (substring l2.input (l.position + 1) l2.position, true, l2)
    rw [if_neg (by omega : ¬ l2.ch = 34)]
  have hlit : substring l2.input (l.position + 1) l2.position = a := by
    rw [hinp2, hp2, substring]
    have harith : l.position + 1 + a.length - (l.position + 1) = a.length := by omega
    rw [harith, htail]
    exact List.take_left a (10 :: rest)
  refine ⟨readChar (addError l2 "non-terminated string"), ?_, ?_, ?_, ?_⟩
  · rw [nextTokenF_not_ws _ _ (by omega), tokenSwitch,
      if_neg (by omega : ¬ l.ch = 10), if_neg (by omega : ¬ l.ch = 61),
      if_neg (by omega : ¬ l.ch = 43), if_neg (by omega : ¬ l.ch = 45),
      if_neg (by omega : ¬ l.ch = 42), if_neg (by omega : ¬ l.ch = 47),
      if_neg (by omega : ¬ l.ch = 37), if_neg (by omega : ¬ l.ch = 33),
      if_neg (by omega : ¬ l.ch = 60), if_neg (by omega : ¬ l.ch = 62),
      if_neg (by omega : ¬ l.ch = 40), if_neg (by omega : ¬ l.ch = 41),
      if_neg (by omega : ¬ l.ch = 123), if_neg (by omega : ¬ l.ch = 125),
      if_neg (by omega : ¬ l.ch = 91), if_neg (by omega : ¬ l.ch = 93),
      if_neg (by omega : ¬ l.ch = 44), if_neg (by omega : ¬ l.ch = 46),
      if_neg (by omega : ¬ l.ch = 59), if_neg (by omega : ¬ l.ch = 0),
      if_pos h34, hrs]
    show some ((⟨"STRING", substring l2.input (l.position + 1) l2.position,
        (addError l2 "non-terminated string").line,
        (addError l2 "non-terminated string").tokenPosition⟩ : Token),
        readChar (addError l2 "non-terminated string")) =
      some ((⟨"STRING", a, l.line, l.tokenPosition + 1 + a.length⟩ : Token),
        readChar (addError l2 "non-terminated string"))
    rw [hlit, addError_line, addError_tokenPosition, hline2, htp2]
  · rw [readChar_errors, addError_errors, herr2, hline2, htp2, String.append_assoc]
    rfl
  · have hl2q := hco2.1
    show (addError l2 "non-terminated string").readPosition = l.position + 1 + a.length + 1
    show l2.readPosition = l.position + 1 + a.length + 1
    omega
  · rw [readChar_line, addError_line, hline2]

/-- C2 counterexample: the claim says the line-feed that early-terminates a
string "is left for the next call to next_token() to process as
line-boundary whitespace".  On input `"a<LF>x` the STRING-emitting call
itself consumes the LF (index 2): it returns with `position = 3` and the
current byte already `x` (120), not `position = 2` with the LF (10) still
current; consequently `x` is tokenized with line 1, not 2. -/
theorem c2_unterminated_string_counterexample :
    (nextTokenF 10 (newLexer [34, 97, 10, 120])).map
        (fun r => (r.2.position, r.2.ch, r.2.line)) = some (3, 120, 1) ∧
    ((3 : Nat) ≠ 2 ∧ (120 : Nat) ≠ 10) ∧
    (tokensF 20 (newLexer [34, 97, 10, 120])).map
        (fun ts => ts.map (fun t => (t.type, t.line))) =
      some [("STRING", 1), ("IDENT", 1), ("EOF", 0)] := by
  refine ⟨by decide, by decide, by decide⟩

/-- C2 (amended): on a line-feed inside a string, `next_token()` emits a
STRING token whose text is the content strictly between the opening quote
and the LF, appends exactly one error formatted
`"[line:column] non-terminated string"` at the line and the byte-counter
column where the LF was found — but it then consumes the LF in the same
call via the trailing advance, without incrementing the line counter, so
the next call starts after the LF rather than processing it as
line-boundary whitespace. -/
theorem c2_unterminated_string_amended :
    (∀ (a rest : List Nat) fuel (l : Lexer), Coherent l → l.ch = 34 →
      l.input.drop l.position = 34 :: (a ++ 10 :: rest) →
      (∀ b ∈ a, b ≠ 34 ∧ b ≠ 10) → a.length + 1 ≤ fuel →
      ∃ l', nextTokenF (fuel + 1 + 1) l =
          some (⟨"STRING", a, l.line, l.tokenPosition + 1 + a.length⟩, l') ∧
        l'.errors = l.errors ++
          ["[" ++ Nat.repr l.line ++ ":" ++
           Nat.repr (l.tokenPosition + 1 + a.length) ++ "] non-terminated string"] ∧
        l'.position = l.position + 1 + a.length + 1 ∧ l'.line = l.line) ∧
    (tokensF 20 (newLexer [34, 97, 10, 120])).map
        (fun ts => ts.map (fun t => (t.type, t.literal, t.line))) =
      some [("STRING", [97], 1), ("IDENT", [120], 1), ("EOF", [], 0)] :=
  ⟨nextTokenF_unterminated_string, by decide⟩

theorem c2_unterminated_string_amended_witness :
    ∃ l', nextTokenF (2 + 1 + 1) (newLexer [34, 97, 10, 120]) =
        some (⟨"STRING", [97], (newLexer [34, 97, 10, 120]).line,
          (newLexer [34, 97, 10, 120]).tokenPosition + 1 + [97].length⟩, l') ∧
      l'.errors = (newLexer [34, 97, 10, 120]).errors ++
        ["[" ++ Nat.repr (newLexer [34, 97, 10, 120]).line ++ ":" ++
         Nat.repr ((newLexer [34, 97, 10, 120]).tokenPosition + 1 + [97].length) ++
         "] non-terminated string"] ∧
      l'.position = (newLexer [34, 97, 10, 120]).position + 1 + [97].length + 1 ∧
      l'.line = (newLexer [34, 97, 10, 120]).line :=
  c2_unterminated_string_amended.1 [97] [120] 2 (newLexer [34, 97, 10, 120])
    ⟨rfl, rfl⟩ rfl rfl (by decide) (by decide)

theorem readChar_position (l : Lexer) : (readChar l).position = l.readPosition := rfl

theorem skipWhitespaceF_not_ws (fuel : Nat) (l l1 : Lexer)
    (h : skipWhitespaceF fuel l = some l1)
    (hws : ¬(l.ch = 32 ∨ l.ch = 9 ∨ l.ch = 13)) : l1 = l := by
  match fuel with
  | 0 => exact Option.noConfusion h
  | n + 1 =>
    rw [skipWhitespaceF, if_neg hws, Option.some.injEq] at h
    exact h.symm

/-- A line comment never touches the line counter, even though the trailing
advance of the same `NextToken` call consumes the terminating CR/LF. -/
theorem nextTokenF_lineComment_line :
    ∀ fuel (l : Lexer) (t : Token) (l' : Lexer), l.ch = 47 → peekChar l = 47 →
      nextTokenF fuel l = some (t, l') →
      l'.line = l.line ∧
      (Coherent l →
        chAt l.input (l'.position - 1) = 13 ∨ chAt l.input (l'.position - 1) = 10) := by
  intro fuel l t l' h47 hpk h
  rw [nextTokenF] at h
  rcases hs : skipWhitespaceF fuel l with _ | l1
  · rw [hs] at h
    exact Option.noConfusion h
  rw [hs] at h
  have hl1 : l1 = l := skipWhitespaceF_not_ws fuel l l1 hs (by omega)
  rw [hl1] at h
  replace h : tokenSwitch fuel l = some (t, l') := h
  cases fuel with
  | zero =>
    rw [tokenSwitch] at h
    exact Option.noConfusion h
  | succ n =>
    rw [tokenSwitch, if_neg (by omega : ¬ l.ch = 10), if_neg (by omega : ¬ l.ch = 61),
      if_neg (by omega : ¬ l.ch = 43), if_neg (by omega : ¬ l.ch = 45),
      if_neg (by omega : ¬ l.ch = 42), if_pos h47, if_pos hpk] at h
    rcases hm : readLineCommentF n l with _ | ⟨lit, l3⟩
    · rw [hm] at h
      exact Option.noConfusion h
    rw [hm] at h
    cases h
    rcases hlc : lineCommentLoop n l with _ | l4
    · rw [readLineCommentF, hlc] at hm
      exact Option.noConfusion hm
    rw [readLineCommentF, hlc] at hm
    cases hm
    obtain ⟨hinp4, hline4, herr4, hch4, hcoh4⟩ := lineCommentLoop_rel n l l3 hlc
    refine ⟨by rw [readChar_line]; exact hline4, fun hco => ?_⟩
    obtain ⟨hco4, hmono4⟩ := hcoh4 hco
    have hpos : (readChar l3).position - 1 = l3.position := by
      rw [readChar_position, hco4.1]
      omega
    rw [hpos, ← hinp4, ← hco4.2]
    exact hch4

/-- A block comment bumps the line counter by exactly the number of LF
bytes among the scanned bytes (those of the comment body up to the
terminator). -/
theorem nextTokenF_blockComment_line :
    ∀ fuel (l : Lexer) (t : Token) (l' : Lexer), Coherent l → l.ch = 47 →
      peekChar l = 42 → nextTokenF fuel l = some (t, l') →
      t.type = "COMMENT" ∧
      l'.line = l.line +
        ((l.input.drop l.position).take (l'.position - 3 - l.position)).count 10 := by
  intro fuel l t l' hco h47 hpk h
  rw [nextTokenF] at h
  rcases hs : skipWhitespaceF fuel l with _ | l1
  · rw [hs] at h
    exact Option.noConfusion h
  rw [hs] at h
  have hl1 : l1 = l := skipWhitespaceF_not_ws fuel l l1 hs (by omega)
  rw [hl1] at h
  replace h : tokenSwitch fuel l = some (t, l') := h
  cases fuel with
  | zero =>
    rw [tokenSwitch] at h
    exact Option.noConfusion h
  | succ n =>
    rw [tokenSwitch, if_neg (by omega : ¬ l.ch = 10), if_neg (by omega : ¬ l.ch = 61),
      if_neg (by omega : ¬ l.ch = 43), if_neg (by omega : ¬ l.ch = 45),
      if_neg (by omega : ¬ l.ch = 42), if_pos h47,
      if_neg (by omega : ¬ peekChar l = 47), if_pos hpk] at h
    rcases hm : readBlockCommentF n l with _ | ⟨lit, l3⟩
    · rw [hm] at h
      exact Option.noConfusion h
    rw [hm] at h
    cases h
    rcases hbl : blockCommentLoop n l with _ | l2
    · rw [readBlockCommentF, hbl] at hm
      exact Option.noConfusion hm
    rw [readBlockCommentF, hbl] at hm
    cases hm
    obtain ⟨hinp2, herr2, hch2, hpk2, hrest⟩ := blockCommentLoop_rel n l l2 hbl
    obtain ⟨hco2, hmono2, hline2⟩ := hrest hco
    refine ⟨rfl, ?_⟩
    have hq2 := hco2.1
    have hpos : (readChar (readChar (readChar l2))).position - 3 - l.position =
        l2.position - l.position := by
      simp [readChar]
      omega
    rw [hpos, readChar_line, readChar_line, readChar_line]
    exact hline2

/-- C4 counterexample: the claim says line increases by one for every
line-feed consumed — including the LF terminating a line comment — and,
equivalently, that every token is labelled with the 1-based line it starts
on.  On `//c<LF>x` the LF is consumed by the trailing advance of the
COMMENT-emitting call without the increment, so the IDENT `x`, which starts
on line 2, is labelled line 1. -/
theorem c4_line_counter_counterexample :
    (tokensF 30 (newLexer [47, 47, 99, 10, 120])).map
        (fun ts => ts.map (fun t => (t.type, t.line))) =
      some [("COMMENT", 1), ("IDENT", 1), ("EOF", 0)] ∧ (1 : Nat) ≠ 2 := by
  refine ⟨by decide, by decide⟩

/-- C4 (amended): `line` increases by one for every LF scanned inside a
block comment (and tokens after a block comment carry the updated line),
but the LF that terminates a line comment and the LF that early-terminates
an unterminated string are consumed by the trailing advance without any
increment, so following tokens can carry a stale line number. -/
theorem c4_line_counter_amended :
    (∀ fuel (l : Lexer) (t : Token) (l' : Lexer), l.ch = 47 → peekChar l = 47 →
      nextTokenF fuel l = some (t, l') →
      l'.line = l.line ∧
      (Coherent l →
        chAt l.input (l'.position - 1) = 13 ∨ chAt l.input (l'.position - 1) = 10)) ∧
    (∀ fuel (l : Lexer) (t : Token) (l' : Lexer), Coherent l → l.ch = 47 →
      peekChar l = 42 → nextTokenF fuel l = some (t, l') →
      t.type = "COMMENT" ∧
      l'.line = l.line +
        ((l.input.drop l.position).take (l'.position - 3 - l.position)).count 10) ∧
    (tokensF 30 (newLexer [47, 42, 10, 42, 47, 32, 120])).map
        (fun ts => ts.map (fun t => (t.type, t.line))) =
      some [("COMMENT", 2), ("IDENT", 2), ("EOF", 0)] ∧
    (tokensF 30 (newLexer [34, 98, 10, 121])).map
        (fun ts => ts.map (fun t => (t.type, t.line))) =
      some [("STRING", 1), ("IDENT", 1), ("EOF", 0)] :=
  ⟨nextTokenF_lineComment_line, nextTokenF_blockComment_line, by decide, by decide⟩

theorem c4_line_counter_amended_witness :
    (⟨[47, 47, 99, 10, 120], 4, 5, 120, 1, 5, []⟩ : Lexer).line =
        (newLexer [47, 47, 99, 10, 120]).line ∧
      (Coherent (newLexer [47, 47, 99, 10, 120]) →
        chAt (newLexer [47, 47, 99, 10, 120]).input
            ((⟨[47, 47, 99, 10, 120], 4, 5, 120, 1, 5, []⟩ : Lexer).position - 1) = 13 ∨
        chAt (newLexer [47, 47, 99, 10, 120]).input
            ((⟨[47, 47, 99, 10, 120], 4, 5, 120, 1, 5, []⟩ : Lexer).position - 1) = 10) :=
  c4_line_counter_amended.1 20 (newLexer [47, 47, 99, 10, 120])
    ⟨"COMMENT", [47, 47, 99], 1, 4⟩ ⟨[47, 47, 99, 10, 120], 4, 5, 120, 1, 5, []⟩
    rfl rfl (by decide)

/-- C10: after a block comment, the token's literal is the source slice
that stops one byte short of the new cursor position: the byte immediately
following the `*/` terminator is consumed by the trailing advance without
being examined and belongs to no token; concretely, `/**/x` tokenizes to
[COMMENT `/**/`, EOF] with no token containing `x`. -/
theorem c10_byte_after_block_comment_skipped :
    (∀ fuel (l : Lexer) (t : Token) (l' : Lexer), Coherent l → l.ch = 47 →
      peekChar l = 42 → nextTokenF fuel l = some (t, l') →
      t.type = "COMMENT" ∧
      t.literal = substring l.input l.position (l'.position - 1) ∧
      l.position + 4 ≤ l'.position) ∧
    (tokensF 20 (newLexer [47, 42, 42, 47, 120])).map
        (fun ts => ts.map (fun t => (t.type, t.literal))) =
      some [("COMMENT", [47, 42, 42, 47]), ("EOF", [])] := by
  refine ⟨?_, by decide⟩
  intro fuel l t l' hco h47 hpk h
  rw [nextTokenF] at h
  rcases hs : skipWhitespaceF fuel l with _ | l1
  · rw [hs] at h
    exact Option.noConfusion h
  rw [hs] at h
  have hl1 : l1 = l := skipWhitespaceF_not_ws fuel l l1 hs (by omega)
  rw [hl1] at h
  replace h : tokenSwitch fuel l = some (t, l') := h
  cases fuel with
  | zero =>
    rw [tokenSwitch] at h
    exact Option.noConfusion h
  | succ n =>
    rw [tokenSwitch, if_neg (by omega : ¬ l.ch = 10), if_neg (by omega : ¬ l.ch = 61),
      if_neg (by omega : ¬ l.ch = 43), if_neg (by omega : ¬ l.ch = 45),
      if_neg (by omega : ¬ l.ch = 42), if_pos h47,
      if_neg (by omega : ¬ peekChar l = 47), if_pos hpk] at h
    rcases hm : readBlockCommentF n l with _ | ⟨lit, l3⟩
    · rw [hm] at h
      exact Option.noConfusion h
    rw [hm] at h
    cases h
    rcases hbl : blockCommentLoop n l with _ | l2
    · rw [readBlockCommentF, hbl] at hm
      exact Option.noConfusion hm
    rw [readBlockCommentF, hbl] at hm
    cases hm
    cases n with
    | zero =>
      rw [blockCommentLoop] at hbl
      exact Option.noConfusion hbl
    | succ m =>
      rw [blockCommentLoop, if_neg (by omega : ¬(l.ch = 42 ∧ peekChar l = 47)),
        if_neg (by omega : ¬ l.ch = 10)] at hbl
      obtain ⟨hinp2, herr2, hch2, hpk2, hrest⟩ := blockCommentLoop_rel m (readChar l) l2 hbl
      obtain ⟨hco2, hmono2, _⟩ := hrest (coherent_readChar l)
      rw [readChar_input] at hinp2
      rw [readChar_position, hco.1] at hmono2
      have hq2 := hco2.1
      refine ⟨rfl, ?_, ?_⟩
      · have hpos : (readChar (readChar (readChar l2))).position - 1 =
            (readChar (readChar l2)).position := by
          simp [readChar]
        rw [hpos]
        show substring (readChar (readChar l2)).input l.position
            (readChar (readChar l2)).position =
          substring l.input l.position (readChar (readChar l2)).position
        rw [readChar_input, readChar_input, hinp2]
      · show l.position + 4 ≤ (readChar (readChar (readChar l2))).position
        simp [readChar]
        omega

theorem c10_byte_after_block_comment_skipped_witness :
    (⟨"COMMENT", [47, 42, 42, 47], 1, 5⟩ : Token).type = "COMMENT" ∧
    (⟨"COMMENT", [47, 42, 42, 47], 1, 5⟩ : Token).literal =
      substring (newLexer [47, 42, 42, 47, 120]).input
        (newLexer [47, 42, 42, 47, 120]).position
        ((⟨[47, 42, 42, 47, 120], 5, 6, 0, 1, 6, []⟩ : Lexer).position - 1) ∧
    (newLexer [47, 42, 42, 47, 120]).position + 4 ≤
      (⟨[47, 42, 42, 47, 120], 5, 6, 0, 1, 6, []⟩ : Lexer).position :=
  c10_byte_after_block_comment_skipped.1 20 (newLexer [47, 42, 42, 47, 120])
    ⟨"COMMENT", [47, 42, 42, 47], 1, 5⟩ ⟨[47, 42, 42, 47, 120], 5, 6, 0, 1, 6, []⟩
    ⟨rfl, rfl⟩ rfl rfl (by decide)

/-- C3 counterexample: the claim says every token's column field is the
1-based position of the token within its line; the single-character token
`;` as the very first byte of the input would then have column 1, but the
code stores `l.position`, the 0-based absolute byte offset, which is 0. -/
theorem c3_column_counterexample :
    (nextTokenF 5 (newLexer [59])).map (fun r => r.1.pos) = some 0 ∧ (0 : Nat) ≠ 1 := by
  refine ⟨by decide, by decide⟩

/-- C3 (amended): the column field is not a 1-based within-line position.
For the unconditional single-character operator and punctuation tokens it
is `l.position`, the 0-based absolute byte offset of the character in the
whole input; for identifier/keyword tokens it is the internal byte counter
`tokenPosition` measured after the token's last byte. -/
theorem c3_column_semantics_amended :
    (∀ fuel (l : Lexer) (b : Nat) (tag : String),
      (b, tag) ∈ [(42, "*"), (37, "%"), (40, "("), (41, ")"), (123, "\x7b"),
        (125, "\x7d"), (91, "["), (93, "]"), (44, ","), (46, "."), (59, ";")] →
      l.ch = b →
      nextTokenF (fuel + 1 + 1) l =
        some (⟨tag, [b], l.line, l.position⟩, readChar l)) ∧
    (∀ fuel (l : Lexer), Coherent l → isLetter l.ch = true →
      l.input.length + 1 ≤ fuel →
      ∃ l2, nextTokenF (fuel + 1 + 1) l =
        some (⟨lookupIdent ((l.input.drop l.position).takeWhile isLetter),
               (l.input.drop l.position).takeWhile isLetter, l.line,
               l.tokenPosition + ((l.input.drop l.position).takeWhile isLetter).length⟩,
          l2) ∧
        l2.position = l.position +
          ((l.input.drop l.position).takeWhile isLetter).length) := by
  refine ⟨?_, nextTokenF_identifier⟩
  intro fuel l b tag hmem hb
  fin_cases hmem
  · rw [nextTokenF_not_ws _ _ (by omega), tokenSwitch,
      if_neg (by omega : ¬ l.ch = 10), if_neg (by omega : ¬ l.ch = 61), if_neg (by omega : ¬ l.ch = 43), if_neg (by omega : ¬ l.ch = 45), if_pos hb, hb]
  · rw [nextTokenF_not_ws _ _ (by omega), tokenSwitch,
      if_neg (by omega : ¬ l.ch = 10), if_neg (by omega : ¬ l.ch = 61), if_neg (by omega : ¬ l.ch = 43), if_neg (by omega : ¬ l.ch = 45), if_neg (by omega : ¬ l.ch = 42), if_neg (by omega : ¬ l.ch = 47), if_pos hb, hb]
  · rw [nextTokenF_not_ws _ _ (by omega), tokenSwitch,
      if_neg (by omega : ¬ l.ch = 10), if_neg (by omega : ¬ l.ch = 61), if_neg (by omega : ¬ l.ch = 43), if_neg (by omega : ¬ l.ch = 45), if_neg (by omega : ¬ l.ch = 42), if_neg (by omega : ¬ l.ch = 47), if_neg (by omega : ¬ l.ch = 37), if_neg (by omega : ¬ l.ch = 33), if_neg (by omega : ¬ l.ch = 60), if_neg (by omega : ¬ l.ch = 62), if_pos hb, hb]
  · rw [nextTokenF_not_ws _ _ (by omega), tokenSwitch,
      if_neg (by omega : ¬ l.ch = 10), if_neg (by omega : ¬ l.ch = 61), if_neg (by omega : ¬ l.ch = 43), if_neg (by omega : ¬ l.ch = 45), if_neg (by omega : ¬ l.ch = 42), if_neg (by omega : ¬ l.ch = 47), if_neg (by omega : ¬ l.ch = 37), if_neg (by omega : ¬ l.ch = 33), if_neg (by omega : ¬ l.ch = 60), if_neg (by omega : ¬ l.ch = 62), if_neg (by omega : ¬ l.ch = 40), if_pos hb, hb]
  · rw [nextTokenF_not_ws _ _ (by omega), tokenSwitch,
      if_neg (by omega : ¬ l.ch = 10), if_neg (by omega : ¬ l.ch = 61), if_neg (by omega : ¬ l.ch = 43), if_neg (by omega : ¬ l.ch = 45), if_neg (by omega : ¬ l.ch = 42), if_neg (by omega : ¬ l.ch = 47), if_neg (by omega : ¬ l.ch = 37), if_neg (by omega : ¬ l.ch = 33), if_neg (by omega : ¬ l.ch = 60), if_neg (by omega : ¬ l.ch = 62), if_neg (by omega : ¬ l.ch = 40), if_neg (by omega : ¬ l.ch = 41), if_pos hb, hb]
  · rw [nextTokenF_not_ws _ _ (by omega), tokenSwitch,
      if_neg (by omega : ¬ l.ch = 10), if_neg (by omega : ¬ l.ch = 61), if_neg (by omega : ¬ l.ch = 43), if_neg (by omega : ¬ l.ch = 45), if_neg (by omega : ¬ l.ch = 42), if_neg (by omega : ¬ l.ch = 47), if_neg (by omega : ¬ l.ch = 37), if_neg (by omega : ¬ l.ch = 33), if_neg (by omega : ¬ l.ch = 60), if_neg (by omega : ¬ l.ch = 62), if_neg (by omega : ¬ l.ch = 40), if_neg (by omega : ¬ l.ch = 41), if_neg (by omega : ¬ l.ch = 123), if_pos hb, hb]
  · rw [nextTokenF_not_ws _ _ (by omega), tokenSwitch,
      if_neg (by omega : ¬ l.ch = 10), if_neg (by omega : ¬ l.ch = 61), if_neg (by omega : ¬ l.ch = 43), if_neg (by omega : ¬ l.ch = 45), if_neg (by omega : ¬ l.ch = 42), if_neg (by omega : ¬ l.ch = 47), if_neg (by omega : ¬ l.ch = 37), if_neg (by omega : ¬ l.ch = 33), if_neg (by omega : ¬ l.ch = 60), if_neg (by omega : ¬ l.ch = 62), if_neg (by omega : ¬ l.ch = 40), if_neg (by omega : ¬ l.ch = 41), if_neg (by omega : ¬ l.ch = 123), if_neg (by omega : ¬ l.ch = 125), if_pos hb, hb]
  · rw [nextTokenF_not_ws _ _ (by omega), tokenSwitch,
      if_neg (by omega : ¬ l.ch = 10), if_neg (by omega : ¬ l.ch = 61), if_neg (by omega : ¬ l.ch = 43), if_neg (by omega : ¬ l.ch = 45), if_neg (by omega : ¬ l.ch = 42), if_neg (by omega : ¬ l.ch = 47), if_neg (by omega : ¬ l.ch = 37), if_neg (by omega : ¬ l.ch = 33), if_neg (by omega : ¬ l.ch = 60), if_neg (by omega : ¬ l.ch = 62), if_neg (by omega : ¬ l.ch = 40), if_neg (by omega : ¬ l.ch = 41), if_neg (by omega : ¬ l.ch = 123), if_neg (by omega : ¬ l.ch = 125), if_neg (by omega : ¬ l.ch = 91), if_pos hb, hb]
  · rw [nextTokenF_not_ws _ _ (by omega), tokenSwitch,
      if_neg (by omega : ¬ l.ch = 10), if_neg (by omega : ¬ l.ch = 61), if_neg (by omega : ¬ l.ch = 43), if_neg (by omega : ¬ l.ch = 45), if_neg (by omega : ¬ l.ch = 42), if_neg (by omega : ¬ l.ch = 47), if_neg (by omega : ¬ l.ch = 37), if_neg (by omega : ¬ l.ch = 33), if_neg (by omega : ¬ l.ch = 60), if_neg (by omega : ¬ l.ch = 62), if_neg (by omega : ¬ l.ch = 40), if_neg (by omega : ¬ l.ch = 41), if_neg (by omega : ¬ l.ch = 123), if_neg (by omega : ¬ l.ch = 125), if_neg (by omega : ¬ l.ch = 91), if_neg (by omega : ¬ l.ch = 93), if_pos hb, hb]
  · rw [nextTokenF_not_ws _ _ (by omega), tokenSwitch,
      if_neg (by omega : ¬ l.ch = 10), if_neg (by omega : ¬ l.ch = 61), if_neg (by omega : ¬ l.ch = 43), if_neg (by omega : ¬ l.ch = 45), if_neg (by omega : ¬ l.ch = 42), if_neg (by omega : ¬ l.ch = 47), if_neg (by omega : ¬ l.ch = 37), if_neg (by omega : ¬ l.ch = 33), if_neg (by omega : ¬ l.ch = 60), if_neg (by omega : ¬ l.ch = 62), if_neg (by omega : ¬ l.ch = 40), if_neg (by omega : ¬ l.ch = 41), if_neg (by omega : ¬ l.ch = 123), if_neg (by omega : ¬ l.ch = 125), if_neg (by omega : ¬ l.ch = 91), if_neg (by omega : ¬ l.ch = 93), if_neg (by omega : ¬ l.ch = 44), if_pos hb, hb]
  · rw [nextTokenF_not_ws _ _ (by omega), tokenSwitch,
      if_neg (by omega : ¬ l.ch = 10), if_neg (by omega : ¬ l.ch = 61), if_neg (by omega : ¬ l.ch = 43), if_neg (by omega : ¬ l.ch = 45), if_neg (by omega : ¬ l.ch = 42), if_neg (by omega : ¬ l.ch = 47), if_neg (by omega : ¬ l.ch = 37), if_neg (by omega : ¬ l.ch = 33), if_neg (by omega : ¬ l.ch = 60), if_neg (by omega : ¬ l.ch = 62), if_neg (by omega : ¬ l.ch = 40), if_neg (by omega : ¬ l.ch = 41), if_neg (by omega : ¬ l.ch = 123), if_neg (by omega : ¬ l.ch = 125), if_neg (by omega : ¬ l.ch = 91), if_neg (by omega : ¬ l.ch = 93), if_neg (by omega : ¬ l.ch = 44), if_neg (by omega : ¬ l.ch = 46), if_pos hb, hb]

theorem c3_column_semantics_amended_witness :
    nextTokenF (3 + 1 + 1) (newLexer [59]) =
      some (⟨";", [59], (newLexer [59]).line, (newLexer [59]).position⟩,
        readChar (newLexer [59])) :=
  c3_column_semantics_amended.1 3 (newLexer [59]) 59 ";" (by decide) rfl

/-- C5 counterexample: the claim says the EOF token's line/column reflect
the position reached at end of input.  On empty input the scanner is at
line 1, but the EOF token carries the Go zero values Line = 0,
Position = 0. -/
theorem c5_eof_counterexample :
    (tokensF 10 (newLexer [])).map (fun ts => ts.map (fun t => (t.type, t.line, t.pos))) =
      some [("EOF", 0, 0)] ∧ (newLexer []).line = 1 ∧ (0 : Nat) ≠ 1 := by
  refine ⟨by decide, by decide, by decide⟩

/-- C5 (amended): once the input is exhausted, every call to `next_token()`
returns an EOF token with empty lexeme whose line and column fields are the
struct zero values 0 and 0 (they do not reflect the position reached), and
the resulting state is again exhausted with the 0 sentinel current — so
repeated calls return this EOF token forever. -/
theorem c5_eof_amended :
    ∀ fuel (l : Lexer), l.ch = 0 → l.input.length ≤ l.readPosition →
      nextTokenF (fuel + 1 + 1) l = some (⟨"EOF", [], 0, 0⟩, readChar l) ∧
      (readChar l).ch = 0 ∧ l.input.length ≤ (readChar l).readPosition := by
  intro fuel l h0 hex
  refine ⟨?_, by simp [readChar, hex], by simp [readChar]; omega⟩
  rw [nextTokenF_not_ws _ _ (by omega), tokenSwitch,
    if_neg (by omega : ¬ l.ch = 10), if_neg (by omega : ¬ l.ch = 61),
    if_neg (by omega : ¬ l.ch = 43), if_neg (by omega : ¬ l.ch = 45),
    if_neg (by omega : ¬ l.ch = 42), if_neg (by omega : ¬ l.ch = 47),
    if_neg (by omega : ¬ l.ch = 37), if_neg (by omega : ¬ l.ch = 33),
    if_neg (by omega : ¬ l.ch = 60), if_neg (by omega : ¬ l.ch = 62),
    if_neg (by omega : ¬ l.ch = 40), if_neg (by omega : ¬ l.ch = 41),
    if_neg (by omega : ¬ l.ch = 123), if_neg (by omega : ¬ l.ch = 125),
    if_neg (by omega : ¬ l.ch = 91), if_neg (by omega : ¬ l.ch = 93),
    if_neg (by omega : ¬ l.ch = 44), if_neg (by omega : ¬ l.ch = 46),
    if_neg (by omega : ¬ l.ch = 59), if_pos h0]

theorem c5_eof_amended_witness :
    nextTokenF (3 + 1 + 1) (newLexer []) = some (⟨"EOF", [], 0, 0⟩, readChar (newLexer [])) ∧
    (readChar (newLexer [])).ch = 0 ∧
    (newLexer []).input.length ≤ (readChar (newLexer [])).readPosition :=
  c5_eof_amended 3 (newLexer []) rfl (by decide)

/-- C6 counterexample: the claim says `position` equals the input length
once exhausted and that this is preserved by every subsequent call.  On
empty input (length 0) a single `next_token()` call leaves
`position = 1`. -/
theorem c6_cursor_invariant_counterexample :
    (nextTokenF 5 (newLexer [])).map (fun r => r.2.position) = some 1 ∧
    (newLexer []).input.length = 0 ∧ (1 : Nat) ≠ 0 := by
  refine ⟨by decide, by decide, by decide⟩

/-- C6 (amended): `read_position = position + 1` holds after every advance
and after every `next_token()` call; once the input is exhausted the
current byte is the 0 sentinel and `position` is at least the input length
— it equals the length exactly when exhaustion is first reached
(`read_position = length`), but grows by one on each further advance
instead of staying equal to the length. -/
theorem c6_cursor_invariant_amended :
    (∀ l : Lexer, (readChar l).readPosition = (readChar l).position + 1) ∧
    (∀ fuel (l : Lexer) (t : Token) (l' : Lexer), nextTokenF fuel l = some (t, l') →
      l'.readPosition = l'.position + 1) ∧
    (∀ l : Lexer, l.input.length ≤ l.readPosition →
      (readChar l).ch = 0 ∧ l.input.length ≤ (readChar l).position) ∧
    (∀ l : Lexer, l.readPosition = l.input.length →
      (readChar l).position = l.input.length) := by
  refine ⟨fun l => rfl, nextTokenF_adv, fun l h => ⟨by simp [readChar, h], ?_⟩,
    fun l h => by simp [readChar, h]⟩
  rw [readChar_position]
  exact h

theorem c6_cursor_invariant_amended_witness :
    (⟨[59], 1, 2, 0, 1, 2, []⟩ : Lexer).readPosition =
      (⟨[59], 1, 2, 0, 1, 2, []⟩ : Lexer).position + 1 :=
  c6_cursor_invariant_amended.2.1 5 (newLexer [59]) ⟨";", [59], 1, 0⟩
    ⟨[59], 1, 2, 0, 1, 2, []⟩ (by decide)

/-- C7 counterexample: the claim says a byte starts an identifier only if
it is ASCII alphabetic or an underscore, and that any byte outside the
recognized classes yields an ILLEGAL token.  Byte 181 (Latin-1 µ) is
neither ASCII alphabetic nor an underscore, yet the code classifies it as a
letter (via Unicode classification of the promoted byte) and emits an
IDENT token, not ILLEGAL. -/
theorem c7_letter_class_counterexample :
    (tokensF 10 (newLexer [181])).map (fun ts => ts.map (fun t => (t.type, t.literal))) =
      some [("IDENT", [181]), ("EOF", [])] ∧
    isLetter 181 = true ∧
    ¬((65 ≤ 181 ∧ 181 ≤ 90) ∨ (97 ≤ 181 ∧ 181 ≤ 122) ∨ 181 = 95) := by
  refine ⟨by decide, by decide, by decide⟩

set_option maxRecDepth 8192 in
/-- C7 (amended): a byte starts (and extends) an identifier iff it is ASCII
alphabetic, an underscore, or one of the Latin-1 letter bytes 170, 181,
186, 192-214, 216-246, 248-255 (the byte is promoted to a Unicode code
point before classification); digits never extend an identifier; and every
byte outside all recognized classes yields an ILLEGAL token carrying that
single byte as its lexeme while the cursor advances by exactly one byte, so
scanning continues. -/
theorem c7_letter_class_amended :
    (∀ c : Nat, c < 256 →
      (isLetter c = true ↔
        ((65 ≤ c ∧ c ≤ 90) ∨ (97 ≤ c ∧ c ≤ 122) ∨ c = 95 ∨ c = 170 ∨ c = 181 ∨
         c = 186 ∨ (192 ≤ c ∧ c ≤ 214) ∨ (216 ≤ c ∧ c ≤ 246) ∨
         (248 ≤ c ∧ c ≤ 255)))) ∧
    (∀ c : Nat, c < 256 → isDigit c = true → isLetter c = false) ∧
    (∀ fuel (l : Lexer) (b : Nat), l.ch = b →
      b ∉ ([10, 32, 9, 13, 61, 43, 45, 42, 47, 37, 33, 60, 62, 40, 41, 123, 125,
            91, 93, 44, 46, 59, 0, 34] : List Nat) →
      isLetter b = false → isDigit b = false →
      nextTokenF (fuel + 1 + 1) l =
        some (⟨"ILLEGAL", [b], l.line, l.position⟩, readChar l)) := by
  refine ⟨by decide, by decide, ?_⟩
  intro fuel l b hb hnotin hletter hdigit
  simp only [List.mem_cons, List.not_mem_nil, or_false] at hnotin
  push_neg at hnotin
  obtain ⟨n10, n32, n9, n13, n61, n43, n45, n42, n47, n37, n33, n60, n62, n40, n41,
    n123, n125, n91, n93, n44, n46, n59, n0, n34⟩ := hnotin
  rw [nextTokenF_not_ws _ _ (by omega), tokenSwitch,
    if_neg (by omega : ¬ l.ch = 10), if_neg (by omega : ¬ l.ch = 61),
    if_neg (by omega : ¬ l.ch = 43), if_neg (by omega : ¬ l.ch = 45),
    if_neg (by omega : ¬ l.ch = 42), if_neg (by omega : ¬ l.ch = 47),
    if_neg (by omega : ¬ l.ch = 37), if_neg (by omega : ¬ l.ch = 33),
    if_neg (by omega : ¬ l.ch = 60), if_neg (by omega : ¬ l.ch = 62),
    if_neg (by omega : ¬ l.ch = 40), if_neg (by omega : ¬ l.ch = 41),
    if_neg (by omega : ¬ l.ch = 123), if_neg (by omega : ¬ l.ch = 125),
    if_neg (by omega : ¬ l.ch = 91), if_neg (by omega : ¬ l.ch = 93),
    if_neg (by omega : ¬ l.ch = 44), if_neg (by omega : ¬ l.ch = 46),
    if_neg (by omega : ¬ l.ch = 59), if_neg (by omega : ¬ l.ch = 0),
    if_neg (by omega : ¬ l.ch = 34),
    if_neg (show ¬ isLetter l.ch = true by rw [hb, hletter]; simp),
    if_neg (show ¬ isDigit l.ch = true by rw [hb, hdigit]; simp), hb]

theorem c7_letter_class_amended_witness :
    nextTokenF (3 + 1 + 1) (newLexer [7]) =
      some (⟨"ILLEGAL", [7], (newLexer [7]).line, (newLexer [7]).position⟩,
        readChar (newLexer [7])) :=
  c7_letter_class_amended.2.2 3 (newLexer [7]) 7 rfl (by decide) rfl rfl
